import Mathlib

/-!
Shallow embedding of `src/oidcop/configure.py` (configuration resolution
engine of the oidc-op repository): raw configuration trees, the two
tree transforms `add_base_path` and `set_domain_and_port`, the
provider-level builder `OPConfiguration.__init__`, the server-level
builder `Configuration.__init__` with its entity-attachment loop, and
the static tables `DEFAULT_FILE_ATTRIBUTE_NAMES`, `DEFAULT_CONFIG`,
`URIS`.

Python dictionaries are embedded as the insertion-ordered entry list
`Entries` (a mutual inductive with `Val`, keeping every function
structurally recursive and kernel-computable); Python exceptions as an
explicit `Err` in `Except`; the ambient working directory consumed by
`os.path.abspath` is threaded as an explicit `cwd` parameter.  A
second, id-tagged value type `TVal` tracks the identity of mutable
objects (dicts and lists): two values with the same tag denote the
same heap object, `copy.deepcopy` allocates fresh tags, so aliasing
and copy-isolation facts become provable statements.
-/

namespace Oidcop

mutual

/-- A Python value as it occurs in a configuration tree: strings, ints,
booleans, `None`, lists, and insertion-ordered string-keyed dicts. -/
inductive Val where
  | str (s : String)
  | int (n : Int)
  | bool (b : Bool)
  | none
  | list (elems : ValList)
  | dict (entries : Entries)

/-- The elements of an embedded Python list, in order. -/
inductive ValList where
  | nil
  | cons (v : Val) (rest : ValList)

/-- The `key, value` pairs of an embedded Python dict, in insertion
order; keys are unique in any dict produced by a parser. -/
inductive Entries where
  | nil
  | cons (k : String) (v : Val) (rest : Entries)

end

deriving instance DecidableEq for Val
deriving instance DecidableEq for ValList
deriving instance DecidableEq for Entries
deriving instance DecidableEq for Except

/-- Build `Entries` from a Lean list literal. -/
def entriesOf : List (String × Val) → Entries
  | [] => .nil
  | (k, v) :: rest => .cons k v (entriesOf rest)

/-- Build `ValList` from a Lean list literal. -/
def listOf : List Val → ValList
  | [] => .nil
  | v :: rest => .cons v (listOf rest)

/-- The elements of a `ValList`, as a Lean list. -/
def ValList.toList : ValList → List Val
  | .nil => []
  | .cons v rest => v :: rest.toList

/-- The keys of a dict, in insertion order. -/
def Entries.keys : Entries → List String
  | .nil => []
  | .cons k _ rest => k :: rest.keys

/-- `d[k]`-style first-match lookup. -/
def lookupD (es : Entries) (k : String) : Option Val :=
  match es with
  | .nil => Option.none
  | .cons k2 v rest => if k2 = k then some v else lookupD rest k

/-- Python truthiness test (`bool(v)` is `False`): `None`, `False`,
`0`, `""`, `[]` and `{}` are falsy. -/
def Val.isFalsy : Val → Bool
  | .str s => s = ""
  | .int n => n = 0
  | .bool b => !b
  | .none => true
  | .list .nil => true
  | .list (.cons _ _) => false
  | .dict .nil => true
  | .dict (.cons _ _ _) => false

/-- Python exceptions raised by the embedded code.  `unmodeled` marks
inputs that leave the modelled fragment of a builtin (e.g. a format
spec inside a replacement field); no theorem depends on those. -/
inductive Err where
  | attributeError
  | typeError
  | keyError (k : String)
  | valueError
  | indexError
  | unmodeled (what : String)
deriving DecidableEq, Repr

/-- `s.startswith(pre)` as a char-list prefix test (`String.startsWith`
does not reduce inside the kernel; this definition does). -/
def strStartsWith (s pre : String) : Bool := pre.toList.isPrefixOf s.toList

/-- `s.endswith(suf)` as a char-list suffix test. -/
def strEndsWith (s suf : String) : Bool := suf.toList.isSuffixOf s.toList

/-- `os.path.join(a, b)` for POSIX paths, two arguments. -/
def os_path_join (a b : String) : String :=
  if strStartsWith b "/" then b
  else if a = "" then b
  else if strEndsWith a "/" then a ++ b
  else a ++ "/" ++ b

/-- `str.split(sep)` for a single-character separator, on char lists:
`""` splits to `[""]`, separators at the ends produce empty pieces. -/
def splitCharList (sep : Char) : List Char → List (List Char)
  | [] => [[]]
  | c :: rest =>
    let r := splitCharList sep rest
    if c = sep then [] :: r
    else
      match r with
      | [] => [[c]]
      | h :: t => (c :: h) :: t

/-- One step of `posixpath.normpath`'s component loop: skip `""` and
`"."`, push ordinary components, let `".."` pop unless at a relative
start or on top of another `".."`. -/
def normpathStep (initialSlashes : Nat) (acc : List String) (comp : String) : List String :=
  if comp = "" ∨ comp = "." then acc
  else if comp ≠ ".." ∨ (initialSlashes = 0 ∧ acc = []) ∨ acc.getLast? = some ".." then
    acc ++ [comp]
  else if acc ≠ [] then acc.dropLast
  else acc

/-- `posixpath.normpath`. -/
def normpath (p : String) : String :=
  if p = "" then "."
  else
    let slashes : Nat :=
      if strStartsWith p "/" then
        if strStartsWith p "//" ∧ ¬ strStartsWith p "///" then 2 else 1
      else 0
    let comps := (splitCharList '/' p.toList).map (fun l => String.mk l)
    let nc := comps.foldl (normpathStep slashes) []
    let res := String.mk (List.replicate slashes '/') ++ String.intercalate "/" nc
    if res = "" then "." else res

/-- `os.path.abspath(p)` with the process working directory `cwd`
passed explicitly: absolute paths are normalised, relative ones are
joined to `cwd` first. -/
def os_path_abspath (cwd : String) (p : String) : String :=
  if strStartsWith p "/" then normpath p else normpath (os_path_join cwd p)

/-- Resolve one replacement field of `str.format(domain=..., port=...)`:
`domain` and `port` insert the keyword values (`port`, an int, prints
in decimal), an empty or numeric field is an out-of-range positional
reference (no positional arguments are passed), any field using
conversions, specs or access syntax is outside the modelled fragment,
and any other identifier is a `KeyError`. -/
def pyFormatField (domain : String) (port : Int) (field : List Char) : Except Err String :=
  let fs := String.mk field
  if fs = "domain" then .ok domain
  else if fs = "port" then .ok (toString port)
  else if fs = "" then .error Err.indexError
  else if field.all Char.isDigit then .error Err.indexError
  else if field.any (fun c => c = ':' ∨ c = '!' ∨ c = '.' ∨ c = '[' ∨ c = ']' ∨ c = '\x7b' ∨ c = '\x7d') then
    .error (Err.unmodeled "format field")
  else .error (Err.keyError fs)

/-- Core scan of `str.format(domain=..., port=...)` over the character
list (`\x7b`/`\x7d` are the opening/closing brace characters): the
second argument holds the reversed characters of the replacement field
being read, `Option.none` meaning literal mode.  Doubled braces are
literal braces, a replacement field is resolved by `pyFormatField`, an
unmatched brace is a `ValueError`. -/
def formatScan (domain : String) (port : Int) : List Char → Option (List Char) → Except Err (List Char)
  | [], Option.none => .ok []
  | [], some _ => .error Err.valueError
  | c :: rest, some acc =>
      if c = '\x7d' then do
        let rep ← pyFormatField domain port acc.reverse
        let r ← formatScan domain port rest Option.none
        .ok (rep.toList ++ r)
      else formatScan domain port rest (some (c :: acc))
  | c :: rest, Option.none =>
      if c = '\x7b' then
        match rest with
        | c2 :: rest2 =>
            if c2 = '\x7b' then
              (formatScan domain port rest2 Option.none).map (fun r => '\x7b' :: r)
            else if c2 = '\x7d' then do
              let rep ← pyFormatField domain port []
              let r ← formatScan domain port rest2 Option.none
              .ok (rep.toList ++ r)
            else formatScan domain port rest2 (some [c2])
        | [] => .error Err.valueError
      else if c = '\x7d' then
        match rest with
        | c2 :: rest2 =>
            if c2 = '\x7d' then
              (formatScan domain port rest2 Option.none).map (fun r => '\x7d' :: r)
            else .error Err.valueError
        | [] => .error Err.valueError
      else (formatScan domain port rest Option.none).map (fun r => c :: r)

/-- `s.format(domain=domain, port=port)` on the modelled fragment. -/
def pyFormat (domain : String) (port : Int) (s : String) : Except Err String :=
  (formatScan domain port s.toList Option.none).map String.mk

/-- Module constant `DEFAULT_FILE_ATTRIBUTE_NAMES`. -/
def DEFAULT_FILE_ATTRIBUTE_NAMES : List String :=
  ["server_key", "server_cert", "filename", "template_dir", "private_path",
   "public_path", "db_file"]

/-- Module constant `URIS`. -/
def URIS : List String := ["issuer", "base_url"]

/-- Module constant `DEFAULT_CONFIG`: the provider-level default table. -/
def DEFAULT_CONFIG : Entries := entriesOf
  [("cookie_handler", .dict (entriesOf
     [("class", .str "oidcop.cookie_handler.CookieHandler"),
      ("kwargs", .dict (entriesOf
        [("keys", .dict (entriesOf
           [("private_path", .str "private/cookie_jwks.json"),
            ("key_defs", .list (listOf
              [.dict (entriesOf [("type", .str "OCT"), ("use", .list (listOf [.str "enc"])), ("kid", .str "enc")]),
               .dict (entriesOf [("type", .str "OCT"), ("use", .list (listOf [.str "sig"])), ("kid", .str "sig")])])),
            ("read_only", .bool false)])),
         ("name", .dict (entriesOf
           [("session", .str "oidc_op"),
            ("register", .str "oidc_op_rp"),
            ("session_management", .str "sman")]))]))])),
   ("authz", .dict (entriesOf
     [("class", .str "oidcop.authz.AuthzHandling"),
      ("kwargs", .dict (entriesOf
        [("grant_config", .dict (entriesOf
           [("usage_rules", .dict (entriesOf
              [("authorization_code", .dict (entriesOf
                 [("supports_minting", .list (listOf [.str "access_token", .str "refresh_token", .str "id_token"])),
                  ("max_usage", .int 1)])),
               ("access_token", .dict .nil),
               ("refresh_token", .dict (entriesOf
                 [("supports_minting", .list (listOf [.str "access_token", .str "refresh_token"]))]))])),
            ("expires_in", .int 43200)]))]))])),
   ("httpc_params", .dict (entriesOf [("verify", .bool false)])),
   ("issuer", .str "https://{domain}:{port}"),
   ("session_key", .dict (entriesOf
     [("filename", .str "private/session_jwk.json"),
      ("type", .str "OCT"),
      ("use", .str "sig")])),
   ("template_dir", .str "templates"),
   ("token_handler_args", .dict (entriesOf
     [("jwks_file", .str "private/token_jwks.json"),
      ("code", .dict (entriesOf [("kwargs", .dict (entriesOf [("lifetime", .int 600)]))])),
      ("token", .dict (entriesOf
        [("class", .str "oidcop.token.jwt_token.JWTToken"),
         ("kwargs", .dict (entriesOf [("lifetime", .int 3600)]))])),
      ("refresh", .dict (entriesOf
        [("class", .str "oidcop.token.jwt_token.JWTToken"),
         ("kwargs", .dict (entriesOf [("lifetime", .int 86400)]))])),
      ("id_token", .dict (entriesOf
        [("class", .str "oidcop.token.id_token.IDToken"),
         ("kwargs", .dict .nil)]))]))]

mutual

/-- One `key, val` step of `add_base_path`: a file-attribute key keeps
absolute string values, rewrites `""` to `"./"` and joins other strings
to the base path (`val.startswith` raises `AttributeError` on any
non-string value); independently, a dict value under a non-matching key
is recursed into (after a file-attribute rewrite `val` is a string, so
the two branches are exclusive, and `continue` skips the dict check). -/
def add_base_path_val (base_path : String) (fa : List String) (key : String) : Val → Except Err Val
  | .str s =>
      if key ∈ fa then
        if strStartsWith s "/" then .ok (.str s)
        else if s = "" then .ok (.str ("./" ++ s))
        else .ok (.str (os_path_join base_path s))
      else .ok (.str s)
  | .dict es =>
      if key ∈ fa then .error Err.attributeError
      else (add_base_path_entries base_path fa es).map Val.dict
  | v =>
      if key ∈ fa then .error Err.attributeError else .ok v

/-- The `for key, val in conf.items()` loop of `add_base_path`, in
insertion order; an exception aborts the remaining entries. -/
def add_base_path_entries (base_path : String) (fa : List String) : Entries → Except Err Entries
  | .nil => .ok .nil
  | .cons k v rest => do
      let w ← add_base_path_val base_path fa k v
      let ws ← add_base_path_entries base_path fa rest
      .ok (.cons k w ws)

end

/-- `add_base_path(conf, base_path, file_attributes)` from the source:
in-place rewrite of file-attribute string values, embedded as a
function returning the post-call tree. -/
def add_base_path (conf : Entries) (base_path : String) (file_attributes : List String) : Except Err Entries :=
  add_base_path_entries base_path file_attributes conf

/-- `v.format(domain=..., port=...)` on one sequence element of a URI
value: non-strings have no `format` attribute. -/
def formatElem (domain : String) (port : Int) : Val → Except Err Val
  | .str s => (pyFormat domain port s).map Val.str
  | _ => .error Err.attributeError

/-- The list comprehension `[v.format(domain=domain, port=port) for v in val]`. -/
def formatElems (domain : String) (port : Int) : ValList → Except Err ValList
  | .nil => .ok .nil
  | .cons v rest => do
      let w ← formatElem domain port v
      let ws ← formatElems domain port rest
      .ok (.cons w ws)

mutual

/-- One `key, val` step of `set_domain_and_port`: a URI key formats a
list element-wise into a new list, formats a string scalar, and raises
`AttributeError` on anything else (no `format` attribute); any other
key recurses into dict values only (`elif`). -/
def sdp_val (uris : List String) (domain : String) (port : Int) (key : String) : Val → Except Err Val
  | .list vs =>
      if key ∈ uris then (formatElems domain port vs).map Val.list else .ok (.list vs)
  | .str s =>
      if key ∈ uris then (pyFormat domain port s).map Val.str else .ok (.str s)
  | .dict es =>
      if key ∈ uris then .error Err.attributeError
      else (sdp_entries uris domain port es).map Val.dict
  | v =>
      if key ∈ uris then .error Err.attributeError else .ok v

/-- The `for key, val in conf.items()` loop of `set_domain_and_port`. -/
def sdp_entries (uris : List String) (domain : String) (port : Int) : Entries → Except Err Entries
  | .nil => .ok .nil
  | .cons k v rest => do
      let w ← sdp_val uris domain port k v
      let ws ← sdp_entries uris domain port rest
      .ok (.cons k w ws)

end

/-- `set_domain_and_port(conf, uris, domain, port)` from the source,
embedded as a function returning the post-call tree. -/
def set_domain_and_port (conf : Entries) (uris : List String) (domain : String) (port : Int) : Except Err Entries :=
  sdp_entries uris domain port conf

/-- `Base.__init__`: apply `add_base_path` when both the base path and
the (defaulted) file-attribute list are truthy. -/
def baseInit (conf : Entries) (base_path : String) (file_attributes : Option (List String)) : Except Err Entries :=
  let fa := file_attributes.getD DEFAULT_FILE_ATTRIBUTE_NAMES
  if base_path ≠ "" ∧ fa ≠ [] then add_base_path conf base_path fa else .ok conf

/-- `if not domain: domain = conf.get("domain", "127.0.0.1")`.  A
non-string tree value would flow into `str.format`'s value conversion,
which is outside the modelled fragment. -/
def resolveDomain (domain : String) (conf : Entries) : Except Err String :=
  if domain = "" then
    match lookupD conf "domain" with
    | some (.str s) => .ok s
    | some _ => .error (Err.unmodeled "non-string domain value")
    | Option.none => .ok "127.0.0.1"
  else .ok domain

/-- `if not port: port = conf.get("port", 80)`, same boundary as
`resolveDomain` for non-int tree values. -/
def resolvePort (port : Int) (conf : Entries) : Except Err Int :=
  if port = 0 then
    match lookupD conf "port" with
    | some (.int n) => .ok n
    | some _ => .error (Err.unmodeled "non-int port value")
    | Option.none => .ok 80
  else .ok port

/-- The stages shared by both builders: `Base.__init__` (path
rewriting), domain/port fallback, then `set_domain_and_port`; returns
the transformed tree and the resolved domain and port. -/
def resolvePipeline (conf : Entries) (base_path : String)
    (file_attributes : Option (List String)) (domain : String) (port : Int) :
    Except Err (Entries × String × Int) := do
  let conf1 ← baseInit conf base_path file_attributes
  let d ← resolveDomain domain conf1
  let p ← resolvePort port conf1
  let conf2 ← set_domain_and_port conf1 URIS d p
  .ok (conf2, d, p)

/-- The eighteen attribute pre-initialisations of
`OPConfiguration.__init__`, in assignment (= `self.__dict__`) order. -/
def opPlaceholders : List (String × Val) :=
  [("add_on", Val.none), ("authz", Val.none), ("authentication", Val.none),
   ("base_url", Val.str ""), ("capabilities", Val.none),
   ("cookie_handler", Val.none), ("endpoint", Val.dict .nil),
   ("httpc_params", Val.dict .nil), ("id_token", Val.none),
   ("issuer", Val.str ""), ("keys", Val.none),
   ("login_hint2acrs", Val.dict .nil), ("login_hint_lookup", Val.none),
   ("session_key", Val.none), ("sub_func", Val.dict .nil),
   ("template_dir", Val.none), ("token_handler_args", Val.dict .nil),
   ("userinfo", Val.none)]

/-- One iteration of the default-merge loop `for key in
self.__dict__.keys()`: a falsy (or missing) tree value falls back to
the `DEFAULT_CONFIG` entry when there is one, otherwise the
pre-initialised placeholder is kept; a truthy tree value is assigned
as-is. -/
def opMergeEntry (conf : Entries) (kv : String × Val) : String × Val :=
  let v := (lookupD conf kv.1).getD Val.none
  if v.isFalsy then
    match lookupD DEFAULT_CONFIG kv.1 with
    | some d => (kv.1, d)
    | Option.none => kv
  else (kv.1, v)

/-- The whole default-merge loop of `OPConfiguration.__init__`; the
attribute dict of the built object stays a Lean pair list (attribute
values are never recursed into). -/
def opMerge (conf : Entries) : List (String × Val) :=
  opPlaceholders.map (opMergeEntry conf)

/-- The final `template_dir` fix-up of `OPConfiguration.__init__`:
`os.path.abspath` of the merged value (of `"templates"` if the
attribute were still `None`); `abspath` of a non-string raises. -/
def opTemplateDirEntry (cwd : String) : String × Val → Except Err (String × Val)
  | (k, v) =>
    if k = "template_dir" then
      match v with
      | .none => .ok (k, .str (os_path_abspath cwd "templates"))
      | .str s => .ok (k, .str (os_path_abspath cwd s))
      | _ => .error Err.typeError
    else .ok (k, v)

/-- `opTemplateDirEntry` over the whole attribute list. -/
def opTemplateDirEntries (cwd : String) : List (String × Val) → Except Err (List (String × Val))
  | [] => .ok []
  | e :: rest => do
      let e2 ← opTemplateDirEntry cwd e
      let rest2 ← opTemplateDirEntries cwd rest
      .ok (e2 :: rest2)

/-- An entity descriptor of the server-level builder: the dict
`{"path": ..., "attr": ..., "class": ...}`.  `path` is absent or a
sequence of keys; `attr` and `class` are absent or present (`class`
objects are abstracted to tags, resolving them is out of scope). -/
structure EConf where
  path : Option (List String)
  attr : Option String
  cls : Option Nat
deriving DecidableEq

/-- The observable result of `_cls(_cnf, base_path=..., file_attributes=...,
domain=..., port=...)`: which class was instantiated on which sub-tree
with which keyword arguments. -/
structure EntityInstance where
  cls : Nat
  conf : Val
  base_path : String
  file_attributes : Option (List String)
  domain : String
  port : Int
deriving DecidableEq

/-- The descent `for step in _path: _cnf = _cnf[step]`: a missing key
in a dict raises `KeyError(step)`, indexing a non-dict with a string
key raises `TypeError`. -/
def walkPath : Val → List String → Except Err Val
  | v, [] => .ok v
  | .dict es, s :: rest =>
      match lookupD es s with
      | some v => walkPath v rest
      | Option.none => .error (Err.keyError s)
  | _, _ :: _ => .error Err.typeError

/-- The sub-tree an entity descriptor points at: `_cnf = conf` followed
by the walk when `econf.get("path")` is truthy (a missing or empty
path keeps the whole tree). -/
def entitySubtree (tree : Entries) (path : Option (List String)) : Except Err Val :=
  match path with
  | some (s :: rest) => walkPath (Val.dict tree) (s :: rest)
  | _ => .ok (Val.dict tree)

/-- One iteration of the entity loop: navigate `econf.get("path")`
(falsy path means the whole tree), then read `econf["attr"]` and
`econf["class"]` (missing → `KeyError`), then build the instance with
the parent build's base path, file attributes, domain and port. -/
def processEntity (tree : Entries) (base_path : String)
    (file_attributes : Option (List String)) (domain : String) (port : Int)
    (econf : EConf) : Except Err (String × EntityInstance) := do
  let sub ← entitySubtree tree econf.path
  let a ← match econf.attr with
    | some a => Except.ok a
    | Option.none => Except.error (Err.keyError "attr")
  let c ← match econf.cls with
    | some c => Except.ok c
    | Option.none => Except.error (Err.keyError "class")
  Except.ok (a, ⟨c, sub, base_path, file_attributes, domain, port⟩)

/-- The entity loop of `Configuration.__init__`.  The pair holds the
`setattr` assignments made so far, in order; the first failing
descriptor stops the loop with its exception, keeping (not rolling
back) the earlier assignments. -/
def attachEntities (tree : Entries) (base_path : String)
    (file_attributes : Option (List String)) (domain : String) (port : Int) :
    List EConf → List (String × EntityInstance) × Option Err
  | [] => ([], Option.none)
  | e :: rest =>
    match processEntity tree base_path file_attributes domain port e with
    | .error err => ([], some err)
    | .ok (a, inst) =>
      let r := attachEntities tree base_path file_attributes domain port rest
      ((a, inst) :: r.1, r.2)

/-- The result of `OPConfiguration.__init__`: the attribute dict of the
built object and the caller's tree as it stands after the call
(`copy.deepcopy` on entry keeps it untouched). -/
structure OPBuild where
  attrs : List (String × Val)
  callerTree : Entries
deriving DecidableEq

/-- `OPConfiguration.__init__(conf, base_path, entity_conf, domain,
port, file_attributes)` with the working directory `cwd` explicit:
deep-copy, `Base.__init__`, placeholder attributes, domain/port
fallback, `set_domain_and_port`, default merge, `template_dir`
fix-up.  `entity_conf` is accepted and never read. -/
def OPConfiguration_init (cwd : String) (conf : Entries) (base_path : String)
    (entity_conf : Option (List EConf)) (domain : String) (port : Int)
    (file_attributes : Option (List String)) : Except Err OPBuild := do
  let _ := entity_conf
  -- conf = copy.deepcopy(conf): every later stage works on the private
  -- copy, so the caller's tree comes back unchanged.
  let (conf2, _d, _p) ← resolvePipeline conf base_path file_attributes domain port
  let attrs := opMerge conf2
  let attrs2 ← opTemplateDirEntries cwd attrs
  .ok { attrs := attrs2, callerTree := conf }

/-- The logging handle of the server-level builder:
`configure_logging(config=...).getChild(__name__)` for a truthy
`logging` sub-tree, else `logging.getLogger("oidcop")` (the logging
subsystem itself is an external collaborator). -/
inductive LoggerV where
  | fromConf (logConf : Val)
  | named (name : String)
deriving DecidableEq

/-- The result of `Configuration.__init__`: the fixed attributes, the
entity assignments with the exception (if any) that stopped the entity
loop, and the caller's tree as it stands after the call — this builder
does not copy, so the tree carries the in-place rewrites. -/
structure SrvBuild where
  logger : LoggerV
  webserver : Val
  entities : List (String × EntityInstance)
  entErr : Option Err
  callerTree : Entries
deriving DecidableEq

/-- `Configuration.__init__(conf, entity_conf, base_path,
file_attributes, domain, port)`: no deep copy; logging handle,
`webserver` extraction, domain/port fallback, `set_domain_and_port`,
entity loop. -/
def Configuration_init (conf : Entries) (entity_conf : Option (List EConf))
    (base_path : String) (file_attributes : Option (List String))
    (domain : String) (port : Int) : Except Err SrvBuild := do
  let conf1 ← baseInit conf base_path file_attributes
  let logConf := (lookupD conf1 "logging").getD Val.none
  let logger := if logConf.isFalsy then LoggerV.named "oidcop" else LoggerV.fromConf logConf
  let d ← resolveDomain domain conf1
  let p ← resolvePort port conf1
  let conf2 ← set_domain_and_port conf1 URIS d p
  -- self.webserver = conf.get("webserver", {}) aliases the tree entry,
  -- which set_domain_and_port then rewrites in place: by the end of
  -- __init__ the attribute holds the substituted subtree (a missing
  -- key yields a fresh empty dict).
  let webserver := (lookupD conf2 "webserver").getD (Val.dict .nil)
  let (ents, entErr) :=
    match entity_conf with
    | some es =>
        if es.isEmpty then ([], Option.none)
        else attachEntities conf2 base_path file_attributes d p es
    | Option.none => ([], Option.none)
  .ok { logger := logger, webserver := webserver, entities := ents,
        entErr := entErr, callerTree := conf2 }

/-- Is the computation successful? -/
def isOkE {ε α : Type} : Except ε α → Bool
  | .ok _ => true
  | .error _ => false

/-- Polymorphic first-match lookup in an attribute list (`getattr` on
the built object's `__dict__`). -/
def lookupP {α : Type} : List (String × α) → String → Option α
  | [], _ => Option.none
  | (k2, v) :: rest, k => if k2 = k then some v else lookupP rest k

/-- Is this value a dict? -/
def Val.isDictB : Val → Bool
  | .dict _ => true
  | _ => false

/-- A string without brace characters: `str.format` maps it to itself. -/
def braceFree (s : String) : Bool :=
  s.toList.all (fun c => (c != '\x7b') && (c != '\x7d'))

/-- Every element is a brace-free string. -/
def allStrBraceFree : ValList → Bool
  | .nil => true
  | .cons (.str s) rest => braceFree s && allStrBraceFree rest
  | .cons _ _ => false

mutual

/-- Substitution-fixed value under a given key: every value that
`set_domain_and_port` would touch (URI-keyed strings, or every element
of URI-keyed lists) is a brace-free string, recursively through the
dict values that the transform recurses into. -/
def substFixedVal (uris : List String) (key : String) : Val → Bool
  | .str s => if key ∈ uris then braceFree s else true
  | .list vs => if key ∈ uris then allStrBraceFree vs else true
  | .dict es => if key ∈ uris then false else substFixedEntries uris es
  | _ => if key ∈ uris then false else true

/-- `substFixedVal` over all entries of a dict. -/
def substFixedEntries (uris : List String) : Entries → Bool
  | .nil => true
  | .cons k v rest => substFixedVal uris k v && substFixedEntries uris rest

end

mutual

/-- Well-formedness for `add_base_path`: every value sitting under a
file-attribute key (in any dict the transform recurses into) is a
string — exactly the condition under which `val.startswith` cannot
raise. -/
def faStringsVal (fa : List String) (key : String) : Val → Bool
  | .str _ => true
  | .dict es => if key ∈ fa then false else faStringsEntries fa es
  | _ => if key ∈ fa then false else true

/-- `faStringsVal` over all entries of a dict. -/
def faStringsEntries (fa : List String) : Entries → Bool
  | .nil => true
  | .cons k v rest => faStringsVal fa k v && faStringsEntries fa rest

end

/-! ### The id-tagged model

`TVal` mirrors `Val` but stamps every mutable object (list or dict)
with a heap id: two tagged values denote the same Python object
exactly when their root ids coincide.  Immutable atoms carry no id —
no claim about this code concerns their identity, and `copy.deepcopy`
does not copy them anyway.  Fresh ids are drawn from an explicit
counter; any id at or above the counter is unallocated. -/

mutual

/-- Id-tagged Python value. -/
inductive TVal where
  | str (s : String)
  | int (n : Int)
  | bool (b : Bool)
  | none
  | list (id : Nat) (elems : TValList)
  | dict (id : Nat) (entries : TEntries)

/-- Elements of a tagged list. -/
inductive TValList where
  | nil
  | cons (v : TVal) (rest : TValList)

/-- Entries of a tagged dict. -/
inductive TEntries where
  | nil
  | cons (k : String) (v : TVal) (rest : TEntries)

end

deriving instance DecidableEq for TVal
deriving instance DecidableEq for TValList
deriving instance DecidableEq for TEntries

/-- First-match lookup in a tagged dict. -/
def lookupT (es : TEntries) (k : String) : Option TVal :=
  match es with
  | .nil => Option.none
  | .cons k2 v rest => if k2 = k then some v else lookupT rest k

/-- Keys of a tagged dict, in insertion order. -/
def TEntries.keysT : TEntries → List String
  | .nil => []
  | .cons k _ rest => k :: rest.keysT

/-- Python truthiness on tagged values (ids are irrelevant to it). -/
def TVal.isFalsyT : TVal → Bool
  | .str s => s = ""
  | .int n => n = 0
  | .bool b => !b
  | .none => true
  | .list _ .nil => true
  | .list _ (.cons _ _) => false
  | .dict _ .nil => true
  | .dict _ (.cons _ _ _) => false

mutual

/-- The heap ids occurring in a tagged value. -/
def idsVal : TVal → List Nat
  | .str _ => []
  | .int _ => []
  | .bool _ => []
  | .none => []
  | .list i es => i :: idsList es
  | .dict i es => i :: idsEntries es

/-- Ids in a tagged list. -/
def idsList : TValList → List Nat
  | .nil => []
  | .cons v rest => idsVal v ++ idsList rest

/-- Ids in a tagged dict. -/
def idsEntries : TEntries → List Nat
  | .nil => []
  | .cons _ v rest => idsVal v ++ idsEntries rest

end

/-- Ids in an attribute list. -/
def idsAttrs : List (String × TVal) → List Nat
  | [] => []
  | (_, v) :: rest => idsVal v ++ idsAttrs rest

/-- The id of a value's own (root) object, when it is mutable. -/
def rootId : TVal → Option Nat
  | .list i _ => some i
  | .dict i _ => some i
  | _ => Option.none

mutual

/-- Tag a plain value, allocating node-first, children left to right;
models the one-time construction of a module-level literal. -/
def tagVal : Val → Nat → TVal × Nat
  | .str s, c => (.str s, c)
  | .int n, c => (.int n, c)
  | .bool b, c => (.bool b, c)
  | .none, c => (.none, c)
  | .list es, c =>
      let (es2, c2) := tagList es (c + 1)
      (.list c es2, c2)
  | .dict es, c =>
      let (es2, c2) := tagEntries es (c + 1)
      (.dict c es2, c2)

/-- Tag the elements of a list. -/
def tagList : ValList → Nat → TValList × Nat
  | .nil, c => (.nil, c)
  | .cons v rest, c =>
      let (v2, c2) := tagVal v c
      let (rest2, c3) := tagList rest c2
      (.cons v2 rest2, c3)

/-- Tag the entries of a dict. -/
def tagEntries : Entries → Nat → TEntries × Nat
  | .nil, c => (.nil, c)
  | .cons k v rest, c =>
      let (v2, c2) := tagVal v c
      let (rest2, c3) := tagEntries rest c2
      (.cons k v2 rest2, c3)

end

/-- The tagged default table, allocated once at module load with ids
`0, 1, 2, ...` — disjoint from any caller-supplied tree in a real
heap. -/
def DEFAULT_CONFIG_T : TEntries := (tagEntries DEFAULT_CONFIG 0).1

mutual

/-- `copy.deepcopy`: fresh ids for every mutable node, atoms shared. -/
def deepcopyVal : TVal → Nat → TVal × Nat
  | .str s, c => (.str s, c)
  | .int n, c => (.int n, c)
  | .bool b, c => (.bool b, c)
  | .none, c => (.none, c)
  | .list _ es, c =>
      let (es2, c2) := deepcopyList es (c + 1)
      (.list c es2, c2)
  | .dict _ es, c =>
      let (es2, c2) := deepcopyEntries es (c + 1)
      (.dict c es2, c2)

/-- `deepcopyVal` over list elements. -/
def deepcopyList : TValList → Nat → TValList × Nat
  | .nil, c => (.nil, c)
  | .cons v rest, c =>
      let (v2, c2) := deepcopyVal v c
      let (rest2, c3) := deepcopyList rest c2
      (.cons v2 rest2, c3)

/-- `deepcopyVal` over dict entries. -/
def deepcopyEntries : TEntries → Nat → TEntries × Nat
  | .nil, c => (.nil, c)
  | .cons k v rest, c =>
      let (v2, c2) := deepcopyVal v c
      let (rest2, c3) := deepcopyEntries rest c2
      (.cons k v2 rest2, c3)

end

mutual

/-- Tagged `add_base_path` step: in-place, so dict ids are preserved;
the rewritten strings are fresh atoms (no id). -/
def add_base_path_valT (base_path : String) (fa : List String) (key : String) : TVal → Except Err TVal
  | .str s =>
      if key ∈ fa then
        if strStartsWith s "/" then .ok (.str s)
        else if s = "" then .ok (.str ("./" ++ s))
        else .ok (.str (os_path_join base_path s))
      else .ok (.str s)
  | .dict i es =>
      if key ∈ fa then .error Err.attributeError
      else (add_base_path_entriesT base_path fa es).map (TVal.dict i)
  | v =>
      if key ∈ fa then .error Err.attributeError else .ok v

/-- Tagged `add_base_path` over dict entries (dict mutated in place,
id kept by the caller). -/
def add_base_path_entriesT (base_path : String) (fa : List String) : TEntries → Except Err TEntries
  | .nil => .ok .nil
  | .cons k v rest => do
      let w ← add_base_path_valT base_path fa k v
      let ws ← add_base_path_entriesT base_path fa rest
      .ok (.cons k w ws)

end

/-- Tagged `Base.__init__`. -/
def baseInitT (conf : TEntries) (base_path : String) (file_attributes : Option (List String)) : Except Err TEntries :=
  let fa := file_attributes.getD DEFAULT_FILE_ATTRIBUTE_NAMES
  if base_path ≠ "" ∧ fa ≠ [] then add_base_path_entriesT base_path fa conf else .ok conf

/-- Tagged domain fallback. -/
def resolveDomainT (domain : String) (conf : TEntries) : Except Err String :=
  if domain = "" then
    match lookupT conf "domain" with
    | some (.str s) => .ok s
    | some _ => .error (Err.unmodeled "non-string domain value")
    | Option.none => .ok "127.0.0.1"
  else .ok domain

/-- Tagged port fallback. -/
def resolvePortT (port : Int) (conf : TEntries) : Except Err Int :=
  if port = 0 then
    match lookupT conf "port" with
    | some (.int n) => .ok n
    | some _ => .error (Err.unmodeled "non-int port value")
    | Option.none => .ok 80
  else .ok port

/-- Tagged formatting of one list element (result is a fresh atom). -/
def formatElemT (domain : String) (port : Int) : TVal → Except Err TVal
  | .str s => (pyFormat domain port s).map TVal.str
  | _ => .error Err.attributeError

/-- Tagged list-comprehension formatting. -/
def formatElemsT (domain : String) (port : Int) : TValList → Except Err TValList
  | .nil => .ok .nil
  | .cons v rest => do
      let w ← formatElemT domain port v
      let ws ← formatElemsT domain port rest
      .ok (.cons w ws)

mutual

/-- Tagged `set_domain_and_port` step with a fresh-id counter: the
list comprehension allocates a new list object (fresh id), the dict
recursion mutates in place (id kept). -/
def sdp_valT (uris : List String) (domain : String) (port : Int) (key : String) : TVal → Nat → Except Err (TVal × Nat)
  | .list i vs, c =>
      if key ∈ uris then (formatElemsT domain port vs).map (fun ws => (.list c ws, c + 1))
      else .ok (.list i vs, c)
  | .str s, c =>
      if key ∈ uris then (pyFormat domain port s).map (fun s2 => (.str s2, c))
      else .ok (.str s, c)
  | .dict i es, c =>
      if key ∈ uris then .error Err.attributeError
      else (sdp_entriesT uris domain port es c).map (fun p => (.dict i p.1, p.2))
  | v, c =>
      if key ∈ uris then .error Err.attributeError else .ok (v, c)

/-- Tagged `set_domain_and_port` over dict entries. -/
def sdp_entriesT (uris : List String) (domain : String) (port : Int) : TEntries → Nat → Except Err (TEntries × Nat)
  | .nil, c => .ok (.nil, c)
  | .cons k v rest, c => do
      let (w, c2) ← sdp_valT uris domain port k v c
      let (ws, c3) ← sdp_entriesT uris domain port rest c2
      .ok (.cons k w ws, c3)

end

/-- The tagged placeholder attributes: the five `{}` literals in
`OPConfiguration.__init__` allocate five fresh dicts. -/
def opPlaceholdersT (c : Nat) : List (String × TVal) × Nat :=
  ([("add_on", TVal.none), ("authz", TVal.none), ("authentication", TVal.none),
    ("base_url", TVal.str ""), ("capabilities", TVal.none),
    ("cookie_handler", TVal.none), ("endpoint", TVal.dict c .nil),
    ("httpc_params", TVal.dict (c + 1) .nil), ("id_token", TVal.none),
    ("issuer", TVal.str ""), ("keys", TVal.none),
    ("login_hint2acrs", TVal.dict (c + 2) .nil), ("login_hint_lookup", TVal.none),
    ("session_key", TVal.none), ("sub_func", TVal.dict (c + 3) .nil),
    ("template_dir", TVal.none), ("token_handler_args", TVal.dict (c + 4) .nil),
    ("userinfo", TVal.none)], c + 5)

/-- Tagged default-merge step: `_val = DEFAULT_CONFIG[key]` stores the
table's entry itself — same ids, no copy. -/
def opMergeEntryT (conf : TEntries) (kv : String × TVal) : String × TVal :=
  let v := (lookupT conf kv.1).getD TVal.none
  if v.isFalsyT then
    match lookupT DEFAULT_CONFIG_T kv.1 with
    | some d => (kv.1, d)
    | Option.none => kv
  else (kv.1, v)

/-- Tagged `template_dir` fix-up (`abspath` builds a fresh string). -/
def opTemplateDirEntryT (cwd : String) : String × TVal → Except Err (String × TVal)
  | (k, v) =>
    if k = "template_dir" then
      match v with
      | .none => .ok (k, .str (os_path_abspath cwd "templates"))
      | .str s => .ok (k, .str (os_path_abspath cwd s))
      | _ => .error Err.typeError
    else .ok (k, v)

/-- Tagged `template_dir` fix-up over the attribute list. -/
def opTemplateDirEntriesT (cwd : String) : List (String × TVal) → Except Err (List (String × TVal))
  | [] => .ok []
  | e :: rest => do
      let e2 ← opTemplateDirEntryT cwd e
      let rest2 ← opTemplateDirEntriesT cwd rest
      .ok (e2 :: rest2)

/-- Result of the tagged provider-level build: attributes and the next
free id. -/
structure OPBuildT where
  attrs : List (String × TVal)
  counter : Nat
deriving DecidableEq

/-- Tagged `OPConfiguration.__init__`, allocation in source order:
deep copy, path rewrite (in place on the copy), placeholder dicts,
domain/port, substitution, merge, `template_dir`.  The caller's tree
is never touched, so it needs no output slot. -/
def OPConfiguration_initT (cwd : String) (conf : TEntries) (base_path : String)
    (entity_conf : Option (List EConf)) (domain : String) (port : Int)
    (file_attributes : Option (List String)) (c0 : Nat) : Except Err OPBuildT := do
  let _ := entity_conf
  let (confc, c1) := deepcopyEntries conf (c0 + 1)
  let conf1 ← baseInitT confc base_path file_attributes
  let (phs, c2) := opPlaceholdersT c1
  let d ← resolveDomainT domain conf1
  let p ← resolvePortT port conf1
  let (conf2, c3) ← sdp_entriesT URIS d p conf1 c2
  let attrs := phs.map (opMergeEntryT conf2)
  let attrs2 ← opTemplateDirEntriesT cwd attrs
  .ok { attrs := attrs2, counter := c3 }

/-- Tagged entity instance. -/
structure EntityInstanceT where
  cls : Nat
  conf : TVal
  base_path : String
  file_attributes : Option (List String)
  domain : String
  port : Int
deriving DecidableEq

/-- Tagged path walk. -/
def walkPathT : TVal → List String → Except Err TVal
  | v, [] => .ok v
  | .dict _ es, s :: rest =>
      match lookupT es s with
      | some v => walkPathT v rest
      | Option.none => .error (Err.keyError s)
  | _, _ :: _ => .error Err.typeError

/-- Tagged descriptor sub-tree selection. -/
def entitySubtreeT (tree : TEntries) (treeId : Nat) (path : Option (List String)) : Except Err TVal :=
  match path with
  | some (s :: rest) => walkPathT (TVal.dict treeId tree) (s :: rest)
  | _ => .ok (TVal.dict treeId tree)

/-- Tagged entity-descriptor processing. -/
def processEntityT (tree : TEntries) (treeId : Nat) (base_path : String)
    (file_attributes : Option (List String)) (domain : String) (port : Int)
    (econf : EConf) : Except Err (String × EntityInstanceT) := do
  let sub ← entitySubtreeT tree treeId econf.path
  let a ← match econf.attr with
    | some a => Except.ok a
    | Option.none => Except.error (Err.keyError "attr")
  let c ← match econf.cls with
    | some c => Except.ok c
    | Option.none => Except.error (Err.keyError "class")
  Except.ok (a, ⟨c, sub, base_path, file_attributes, domain, port⟩)

/-- Tagged entity loop. -/
def attachEntitiesT (tree : TEntries) (treeId : Nat) (base_path : String)
    (file_attributes : Option (List String)) (domain : String) (port : Int) :
    List EConf → List (String × EntityInstanceT) × Option Err
  | [] => ([], Option.none)
  | e :: rest =>
    match processEntityT tree treeId base_path file_attributes domain port e with
    | .error err => ([], some err)
    | .ok (a, inst) =>
      let r := attachEntitiesT tree treeId base_path file_attributes domain port rest
      ((a, inst) :: r.1, r.2)

/-- Tagged logging handle. -/
inductive LoggerVT where
  | fromConf (logConf : TVal)
  | named (name : String)
deriving DecidableEq

/-- Result of the tagged server-level build. -/
structure SrvBuildT where
  logger : LoggerVT
  webserver : TVal
  entities : List (String × EntityInstanceT)
  entErr : Option Err
  callerTree : TEntries
  counter : Nat
deriving DecidableEq

/-- Tagged `Configuration.__init__`: no copy — the caller's dict
(id `treeId`, entries `conf`) is rewritten in place, and
`self.webserver` aliases its `webserver` entry.  `conf.get("webserver",
{})` always allocates the `{}` default argument. -/
def Configuration_initT (treeId : Nat) (conf : TEntries) (entity_conf : Option (List EConf))
    (base_path : String) (file_attributes : Option (List String))
    (domain : String) (port : Int) (c0 : Nat) : Except Err SrvBuildT := do
  let conf1 ← baseInitT conf base_path file_attributes
  let logConf := (lookupT conf1 "logging").getD TVal.none
  let logger := if logConf.isFalsyT then LoggerVT.named "oidcop" else LoggerVT.fromConf logConf
  let d ← resolveDomainT domain conf1
  let p ← resolvePortT port conf1
  let (conf2, c1) ← sdp_entriesT URIS d p conf1 c0
  let webserver := (lookupT conf2 "webserver").getD (TVal.dict c1 .nil)
  let c2 := c1 + 1
  let (ents, entErr) :=
    match entity_conf with
    | some es =>
        if es.isEmpty then ([], Option.none)
        else attachEntitiesT conf2 treeId base_path file_attributes d p es
    | Option.none => ([], Option.none)
  .ok { logger := logger, webserver := webserver, entities := ents,
        entErr := entErr, callerTree := conf2, counter := c2 }

/-! ### Helper lemmas -/

theorem ok_bind {ε α β : Type} (a : α) (f : α → Except ε β) :
    (Except.ok a >>= f) = f a := rfl

theorem error_bind {ε α β : Type} (e : ε) (f : α → Except ε β) :
    (Except.error e >>= f : Except ε β) = Except.error e := rfl

theorem map_ok {ε α β : Type} (f : α → β) (a : α) :
    (Except.ok a : Except ε α).map f = Except.ok (f a) := rfl

theorem map_error {ε α β : Type} (f : α → β) (e : ε) :
    (Except.error e : Except ε α).map f = Except.error e := rfl

theorem lookupD_none_iff : ∀ (es : Entries) (k : String),
    lookupD es k = Option.none ↔ k ∉ es.keys
  | .nil, k => by simp [lookupD, Entries.keys]
  | .cons k2 v rest, k => by
    by_cases hk : k2 = k
    · subst hk; simp [lookupD, Entries.keys]
    · simp [lookupD, Entries.keys, hk, lookupD_none_iff rest k, Ne.symm hk]

theorem add_base_path_entries_keys (bp : String) (fa : List String) :
    ∀ es out, add_base_path_entries bp fa es = .ok out → out.keys = es.keys
  | .nil, out, h => by
    simp [add_base_path_entries] at h
    subst h; rfl
  | .cons k2 v2 rest, out, h => by
    simp only [add_base_path_entries] at h
    cases hw : add_base_path_val bp fa k2 v2 with
    | error e => rw [hw, error_bind] at h; cases h
    | ok w2 =>
      rw [hw, ok_bind] at h
      cases hrest : add_base_path_entries bp fa rest with
      | error e => rw [hrest, error_bind] at h; cases h
      | ok ws =>
        rw [hrest, ok_bind] at h
        cases h
        simp [Entries.keys, add_base_path_entries_keys bp fa rest ws hrest]

theorem add_base_path_entries_lookup (bp : String) (fa : List String) :
    ∀ es out k v, add_base_path_entries bp fa es = .ok out → lookupD es k = some v →
      ∃ w, add_base_path_val bp fa k v = .ok w ∧ lookupD out k = some w
  | .nil, out, k, v, h, hl => by simp [lookupD] at hl
  | .cons k2 v2 rest, out, k, v, h, hl => by
    simp only [add_base_path_entries] at h
    cases hw : add_base_path_val bp fa k2 v2 with
    | error e => rw [hw, error_bind] at h; cases h
    | ok w2 =>
      rw [hw, ok_bind] at h
      cases hrest : add_base_path_entries bp fa rest with
      | error e => rw [hrest, error_bind] at h; cases h
      | ok ws =>
        rw [hrest, ok_bind] at h
        cases h
        by_cases hk : k2 = k
        · subst hk
          simp [lookupD] at hl
          subst hl
          exact ⟨w2, hw, by simp [lookupD]⟩
        · simp [lookupD, hk] at hl
          obtain ⟨w, hw2, hl2⟩ := add_base_path_entries_lookup bp fa rest ws k v hrest hl
          exact ⟨w, hw2, by simp [lookupD, hk, hl2]⟩

theorem add_base_path_val_nonfa_nondict (bp : String) (fa : List String) (key : String) :
    ∀ v : Val, key ∉ fa → Val.isDictB v = false → add_base_path_val bp fa key v = .ok v := by
  intro v hk hd
  cases v <;> simp_all [add_base_path_val, Val.isDictB]

mutual

theorem add_base_path_val_total (bp : String) (fa : List String) (key : String) :
    ∀ v : Val, faStringsVal fa key v = true → ∃ w, add_base_path_val bp fa key v = .ok w
  | .str s, h => by
    by_cases hk : key ∈ fa
    · by_cases h1 : strStartsWith s "/"
      · exact ⟨.str s, by simp [add_base_path_val, hk, h1]⟩
      · by_cases h2 : s = ""
        · exact ⟨.str ("./" ++ s), by
            simp [add_base_path_val, hk, h2, (by decide : strStartsWith "" "/" = false)]⟩
        · exact ⟨.str (os_path_join bp s), by simp [add_base_path_val, hk, h1, h2]⟩
    · exact ⟨.str s, by simp [add_base_path_val, hk]⟩
  | .int n, h => by
    simp [faStringsVal] at h
    exact ⟨.int n, by simp [add_base_path_val, h]⟩
  | .bool b, h => by
    simp [faStringsVal] at h
    exact ⟨.bool b, by simp [add_base_path_val, h]⟩
  | .none, h => by
    simp [faStringsVal] at h
    exact ⟨.none, by simp [add_base_path_val, h]⟩
  | .list es, h => by
    simp [faStringsVal] at h
    exact ⟨.list es, by simp [add_base_path_val, h]⟩
  | .dict es, h => by
    simp only [faStringsVal] at h
    by_cases hk : key ∈ fa
    · simp [hk] at h
    · simp only [hk, if_false] at h
      obtain ⟨out, hout⟩ := add_base_path_entries_total bp fa es h
      exact ⟨Val.dict out, by simp [add_base_path_val, hk, hout, map_ok]⟩

theorem add_base_path_entries_total (bp : String) (fa : List String) :
    ∀ es : Entries, faStringsEntries fa es = true → ∃ out, add_base_path_entries bp fa es = .ok out
  | .nil, _ => ⟨.nil, rfl⟩
  | .cons k v rest, h => by
    simp only [faStringsEntries, Bool.and_eq_true] at h
    obtain ⟨w, hw⟩ := add_base_path_val_total bp fa k v h.1
    obtain ⟨ws, hws⟩ := add_base_path_entries_total bp fa rest h.2
    exact ⟨.cons k w ws, by simp [add_base_path_entries, hw, ok_bind, hws]⟩

end

theorem sdp_entries_keys (uris : List String) (d : String) (p : Int) :
    ∀ es out, sdp_entries uris d p es = .ok out → out.keys = es.keys
  | .nil, out, h => by
    simp [sdp_entries] at h
    subst h; rfl
  | .cons k2 v2 rest, out, h => by
    simp only [sdp_entries] at h
    cases hw : sdp_val uris d p k2 v2 with
    | error e => rw [hw, error_bind] at h; cases h
    | ok w2 =>
      rw [hw, ok_bind] at h
      cases hrest : sdp_entries uris d p rest with
      | error e => rw [hrest, error_bind] at h; cases h
      | ok ws =>
        rw [hrest, ok_bind] at h
        cases h
        simp [Entries.keys, sdp_entries_keys uris d p rest ws hrest]

theorem sdp_entries_lookup (uris : List String) (d : String) (p : Int) :
    ∀ es out k v, sdp_entries uris d p es = .ok out → lookupD es k = some v →
      ∃ w, sdp_val uris d p k v = .ok w ∧ lookupD out k = some w
  | .nil, out, k, v, h, hl => by simp [lookupD] at hl
  | .cons k2 v2 rest, out, k, v, h, hl => by
    simp only [sdp_entries] at h
    cases hw : sdp_val uris d p k2 v2 with
    | error e => rw [hw, error_bind] at h; cases h
    | ok w2 =>
      rw [hw, ok_bind] at h
      cases hrest : sdp_entries uris d p rest with
      | error e => rw [hrest, error_bind] at h; cases h
      | ok ws =>
        rw [hrest, ok_bind] at h
        cases h
        by_cases hk : k2 = k
        · subst hk
          simp [lookupD] at hl
          subst hl
          exact ⟨w2, hw, by simp [lookupD]⟩
        · simp [lookupD, hk] at hl
          obtain ⟨w, hw2, hl2⟩ := sdp_entries_lookup uris d p rest ws k v hrest hl
          exact ⟨w, hw2, by simp [lookupD, hk, hl2]⟩

theorem formatScan_braceFree (d : String) (p : Int) : ∀ cs : List Char,
    cs.all (fun c => (c != '\x7b') && (c != '\x7d')) = true →
    formatScan d p cs Option.none = .ok cs
  | [], _ => rfl
  | c :: rest, h => by
    simp only [List.all_cons, Bool.and_eq_true] at h
    obtain ⟨h1, h3⟩ := h
    simp only [Bool.and_eq_true, bne_iff_ne] at h1
    have ih := formatScan_braceFree d p rest h3
    rw [formatScan.eq_def]
    simp [h1.1, h1.2, ih, map_ok]

theorem pyFormat_braceFree (d : String) (p : Int) (s : String) (h : braceFree s = true) :
    pyFormat d p s = .ok s := by
  unfold braceFree at h
  unfold pyFormat
  rw [formatScan_braceFree d p s.toList h, map_ok]
  cases s
  rfl

theorem formatElems_fixed (d : String) (p : Int) : ∀ vs : ValList,
    allStrBraceFree vs = true → formatElems d p vs = .ok vs
  | .nil, _ => rfl
  | .cons (.str s) rest, h => by
    simp only [allStrBraceFree, Bool.and_eq_true] at h
    simp [formatElems, formatElem, pyFormat_braceFree d p s h.1, map_ok, ok_bind,
          formatElems_fixed d p rest h.2]
  | .cons (.int n) rest, h => by simp [allStrBraceFree] at h
  | .cons (.bool b) rest, h => by simp [allStrBraceFree] at h
  | .cons .none rest, h => by simp [allStrBraceFree] at h
  | .cons (.list es) rest, h => by simp [allStrBraceFree] at h
  | .cons (.dict es) rest, h => by simp [allStrBraceFree] at h

mutual

theorem sdp_val_fixed (uris : List String) (d : String) (p : Int) :
    ∀ (key : String) (v : Val), substFixedVal uris key v = true → sdp_val uris d p key v = .ok v
  | key, .str s, h => by
    by_cases hk : key ∈ uris
    · simp only [substFixedVal, hk, if_true] at h
      simp [sdp_val, hk, pyFormat_braceFree d p s h, map_ok]
    · simp [sdp_val, hk]
  | key, .list vs, h => by
    by_cases hk : key ∈ uris
    · simp only [substFixedVal, hk, if_true] at h
      simp [sdp_val, hk, formatElems_fixed d p vs h, map_ok]
    · simp [sdp_val, hk]
  | key, .dict es, h => by
    by_cases hk : key ∈ uris
    · simp [substFixedVal, hk] at h
    · simp only [substFixedVal, hk, if_false] at h
      simp [sdp_val, hk, sdp_entries_fixed uris d p es h, map_ok]
  | key, .int n, h => by
    by_cases hk : key ∈ uris
    · simp [substFixedVal, hk] at h
    · simp [sdp_val, hk]
  | key, .bool b, h => by
    by_cases hk : key ∈ uris
    · simp [substFixedVal, hk] at h
    · simp [sdp_val, hk]
  | key, .none, h => by
    by_cases hk : key ∈ uris
    · simp [substFixedVal, hk] at h
    · simp [sdp_val, hk]

theorem sdp_entries_fixed (uris : List String) (d : String) (p : Int) :
    ∀ es : Entries, substFixedEntries uris es = true → sdp_entries uris d p es = .ok es
  | .nil, _ => rfl
  | .cons k v rest, h => by
    simp only [substFixedEntries, Bool.and_eq_true] at h
    simp [sdp_entries, sdp_val_fixed uris d p k v h.1, ok_bind,
          sdp_entries_fixed uris d p rest h.2]

end

theorem formatElems_forall2 (d : String) (p : Int) : ∀ vs ws, formatElems d p vs = .ok ws →
    List.Forall₂ (fun v w => ∃ s s2, v = Val.str s ∧ pyFormat d p s = .ok s2 ∧ w = Val.str s2)
      vs.toList ws.toList
  | .nil, ws, h => by
    simp [formatElems] at h
    subst h
    simp [ValList.toList]
  | .cons (.str s) rest, ws, h => by
    simp only [formatElems] at h
    cases hw : formatElem d p (Val.str s) with
    | error e => rw [hw, error_bind] at h; cases h
    | ok w =>
      rw [hw, ok_bind] at h
      cases hrest : formatElems d p rest with
      | error e => rw [hrest, error_bind] at h; cases h
      | ok ws2 =>
        rw [hrest, ok_bind] at h
        cases h
        simp only [formatElem] at hw
        cases hf : pyFormat d p s with
        | error e => rw [hf, map_error] at hw; cases hw
        | ok s2 =>
          rw [hf, map_ok] at hw
          cases hw
          simp only [ValList.toList]
          exact List.Forall₂.cons ⟨s, s2, rfl, hf, rfl⟩ (formatElems_forall2 d p rest ws2 hrest)
  | .cons (.int n) rest, ws, h => by simp [formatElems, formatElem, error_bind] at h
  | .cons (.bool b) rest, ws, h => by simp [formatElems, formatElem, error_bind] at h
  | .cons .none rest, ws, h => by simp [formatElems, formatElem, error_bind] at h
  | .cons (.list es) rest, ws, h => by simp [formatElems, formatElem, error_bind] at h
  | .cons (.dict es) rest, ws, h => by simp [formatElems, formatElem, error_bind] at h

theorem lookupP_map_fst {α β : Type} (f : String × α → String × β)
    (hf : ∀ kv, (f kv).1 = kv.1) : ∀ (l : List (String × α)) (k : String),
    lookupP (l.map f) k = (lookupP l k).map (fun v => (f (k, v)).2)
  | [], _ => rfl
  | (k2, v2) :: rest, k => by
    have h1 : (f (k2, v2)).1 = k2 := hf (k2, v2)
    by_cases hk : k2 = k
    · subst hk
      simp [lookupP, h1]
    · simp [lookupP, h1, hk, lookupP_map_fst f hf rest k]

theorem opMergeEntry_fst (conf : Entries) (kv : String × Val) :
    (opMergeEntry conf kv).1 = kv.1 := by
  obtain ⟨k, v⟩ := kv
  unfold opMergeEntry
  dsimp only
  split
  · split <;> rfl
  · rfl

theorem opTemplateDirEntry_ne (cwd : String) (k2 : String) (v2 : Val)
    (hk2 : k2 ≠ "template_dir") : opTemplateDirEntry cwd (k2, v2) = .ok (k2, v2) := by
  simp [opTemplateDirEntry, hk2]

theorem opTemplateDirEntry_ok_fst (cwd : String) (k2 : String) (v2 : Val) (e2 : String × Val)
    (h : opTemplateDirEntry cwd (k2, v2) = .ok e2) : e2.1 = k2 := by
  by_cases hk2 : k2 = "template_dir"
  · subst hk2
    cases v2 with
    | none => simp only [opTemplateDirEntry, if_pos rfl] at h; cases h; rfl
    | str s => simp only [opTemplateDirEntry, if_pos rfl] at h; cases h; rfl
    | int n => simp [opTemplateDirEntry] at h
    | bool b => simp [opTemplateDirEntry] at h
    | list es => simp [opTemplateDirEntry] at h
    | dict es => simp [opTemplateDirEntry] at h
  · rw [opTemplateDirEntry_ne cwd k2 v2 hk2] at h
    cases h; rfl

theorem opTemplateDirEntries_lookup_ne (cwd : String) : ∀ l out k, opTemplateDirEntries cwd l = .ok out →
    k ≠ "template_dir" → lookupP out k = lookupP l k
  | [], out, k, h, hk => by
    simp [opTemplateDirEntries] at h
    subst h; rfl
  | (k2, v2) :: rest, out, k, h, hk => by
    simp only [opTemplateDirEntries] at h
    cases he : opTemplateDirEntry cwd (k2, v2) with
    | error e => rw [he, error_bind] at h; cases h
    | ok e2 =>
      rw [he, ok_bind] at h
      cases hrest : opTemplateDirEntries cwd rest with
      | error e => rw [hrest, error_bind] at h; cases h
      | ok rest2 =>
        rw [hrest, ok_bind] at h
        cases h
        by_cases hk2 : k2 = k
        · subst hk2
          rw [opTemplateDirEntry_ne cwd k2 v2 (by simpa using hk)] at he
          cases he
          simp [lookupP]
        · obtain ⟨ek, ev⟩ := e2
          have hfst := opTemplateDirEntry_ok_fst cwd k2 v2 (ek, ev) he
          dsimp only at hfst
          subst hfst
          simp [lookupP, hk2, opTemplateDirEntries_lookup_ne cwd rest rest2 k hrest hk]

theorem opTemplateDirEntries_lookup_td (cwd : String) : ∀ l out v, opTemplateDirEntries cwd l = .ok out →
    lookupP l "template_dir" = some v →
    ∃ w, opTemplateDirEntry cwd ("template_dir", v) = .ok ("template_dir", w) ∧
      lookupP out "template_dir" = some w
  | [], out, v, h, hl => by simp [lookupP] at hl
  | (k2, v2) :: rest, out, v, h, hl => by
    simp only [opTemplateDirEntries] at h
    cases he : opTemplateDirEntry cwd (k2, v2) with
    | error e => rw [he, error_bind] at h; cases h
    | ok e2 =>
      rw [he, ok_bind] at h
      cases hrest : opTemplateDirEntries cwd rest with
      | error e => rw [hrest, error_bind] at h; cases h
      | ok rest2 =>
        rw [hrest, ok_bind] at h
        cases h
        by_cases hk2 : k2 = "template_dir"
        · subst hk2
          simp only [lookupP, if_pos rfl] at hl
          have hv : v2 = v := by injection hl
          obtain ⟨ek, ev⟩ := e2
          have hfst := opTemplateDirEntry_ok_fst cwd "template_dir" v2 (ek, ev) he
          dsimp only at hfst
          subst hfst
          rw [hv] at he
          exact ⟨ev, he, by simp [lookupP]⟩
        · simp only [lookupP, hk2, if_false] at hl
          obtain ⟨w, hw, hl2⟩ := opTemplateDirEntries_lookup_td cwd rest rest2 v hrest hl
          obtain ⟨ek, ev⟩ := e2
          have hfst := opTemplateDirEntry_ok_fst cwd k2 v2 (ek, ev) he
          dsimp only at hfst
          subst hfst
          exact ⟨w, hw, by simp [lookupP, hk2, hl2]⟩

theorem opTemplateDirEntries_fst (cwd : String) : ∀ l out, opTemplateDirEntries cwd l = .ok out →
    out.map Prod.fst = l.map Prod.fst
  | [], out, h => by
    simp [opTemplateDirEntries] at h
    subst h; rfl
  | (k2, v2) :: rest, out, h => by
    simp only [opTemplateDirEntries] at h
    cases he : opTemplateDirEntry cwd (k2, v2) with
    | error e => rw [he, error_bind] at h; cases h
    | ok e2 =>
      rw [he, ok_bind] at h
      cases hrest : opTemplateDirEntries cwd rest with
      | error e => rw [hrest, error_bind] at h; cases h
      | ok rest2 =>
        rw [hrest, ok_bind] at h
        cases h
        have hfst := opTemplateDirEntry_ok_fst cwd k2 v2 e2 he
        simp [hfst, opTemplateDirEntries_fst cwd rest rest2 hrest]

theorem baseInit_keys (conf : Entries) (bp : String) (fa : Option (List String)) (conf1 : Entries)
    (h : baseInit conf bp fa = .ok conf1) : conf1.keys = conf.keys := by
  unfold baseInit at h
  dsimp only at h
  split at h
  · exact add_base_path_entries_keys bp _ conf conf1 h
  · cases h; rfl

theorem resolvePipeline_spec (conf : Entries) (bp : String) (fa : Option (List String))
    (dom : String) (prt : Int) (t : Entries) (d : String) (p : Int)
    (hp : resolvePipeline conf bp fa dom prt = .ok (t, d, p)) :
    ∃ conf1, baseInit conf bp fa = .ok conf1 ∧ resolveDomain dom conf1 = .ok d ∧
      resolvePort prt conf1 = .ok p ∧ set_domain_and_port conf1 URIS d p = .ok t := by
  unfold resolvePipeline at hp
  cases h1 : baseInit conf bp fa with
  | error e => rw [h1, error_bind] at hp; cases hp
  | ok conf1 =>
    rw [h1, ok_bind] at hp
    cases h2 : resolveDomain dom conf1 with
    | error e => rw [h2, error_bind] at hp; cases hp
    | ok d0 =>
      rw [h2, ok_bind] at hp
      cases h3 : resolvePort prt conf1 with
      | error e => rw [h3, error_bind] at hp; cases hp
      | ok p0 =>
        rw [h3, ok_bind] at hp
        cases h4 : set_domain_and_port conf1 URIS d0 p0 with
        | error e => rw [h4, error_bind] at hp; cases hp
        | ok t0 =>
          rw [h4, ok_bind] at hp
          obtain ⟨rfl, rfl, rfl⟩ : t0 = t ∧ d0 = d ∧ p0 = p := by
            cases hp; exact ⟨rfl, rfl, rfl⟩
          exact ⟨conf1, rfl, h2, h3, h4⟩

theorem resolvePipeline_keys (conf : Entries) (bp : String) (fa : Option (List String))
    (dom : String) (prt : Int) (t : Entries) (d : String) (p : Int)
    (hp : resolvePipeline conf bp fa dom prt = .ok (t, d, p)) : t.keys = conf.keys := by
  obtain ⟨conf1, h1, _, _, h4⟩ := resolvePipeline_spec conf bp fa dom prt t d p hp
  rw [sdp_entries_keys URIS d p conf1 t h4, baseInit_keys conf bp fa conf1 h1]

theorem OPConfiguration_init_spec (cwd : String) (conf : Entries) (bp : String)
    (ec : Option (List EConf)) (dom : String) (prt : Int) (fa : Option (List String)) (b : OPBuild)
    (hb : OPConfiguration_init cwd conf bp ec dom prt fa = .ok b) :
    ∃ t d p, resolvePipeline conf bp fa dom prt = .ok (t, d, p) ∧
      opTemplateDirEntries cwd (opMerge t) = .ok b.attrs ∧ b.callerTree = conf := by
  unfold OPConfiguration_init at hb
  cases hp : resolvePipeline conf bp fa dom prt with
  | error e => rw [hp, error_bind] at hb; cases hb
  | ok tdp =>
    rw [hp, ok_bind] at hb
    obtain ⟨t, d, p⟩ := tdp
    dsimp only at hb
    cases htd : opTemplateDirEntries cwd (opMerge t) with
    | error e => rw [htd, error_bind] at hb; cases hb
    | ok attrs2 =>
      rw [htd, ok_bind] at hb
      cases hb
      exact ⟨t, d, p, rfl, htd, rfl⟩

/-- How one attribute of a successful provider-level build relates to
the transformed tree: outside `template_dir`, it is exactly the
default-merge of the placeholder with the tree value. -/
theorem op_attrs_lookup (cwd : String) (conf : Entries) (bp : String)
    (ec : Option (List EConf)) (dom : String) (prt : Int) (fa : Option (List String)) (b : OPBuild)
    (t : Entries) (d : String) (p : Int)
    (hp : resolvePipeline conf bp fa dom prt = .ok (t, d, p))
    (hb : OPConfiguration_init cwd conf bp ec dom prt fa = .ok b)
    (k : String) (hk : k ≠ "template_dir") :
    lookupP b.attrs k = (lookupP opPlaceholders k).map (fun v0 => (opMergeEntry t (k, v0)).2) := by
  unfold OPConfiguration_init at hb
  rw [hp, ok_bind] at hb
  dsimp only at hb
  cases htd : opTemplateDirEntries cwd (opMerge t) with
  | error e => rw [htd, error_bind] at hb; cases hb
  | ok attrs2 =>
    rw [htd, ok_bind] at hb
    cases hb
    dsimp only
    rw [opTemplateDirEntries_lookup_ne cwd (opMerge t) attrs2 k htd hk]
    exact lookupP_map_fst (opMergeEntry t) (opMergeEntry_fst t) opPlaceholders k

/-- A successful provider-level build determines the `template_dir`
stage on the merged attributes. -/
theorem op_build_td (cwd : String) (conf : Entries) (bp : String)
    (ec : Option (List EConf)) (dom : String) (prt : Int) (fa : Option (List String)) (b : OPBuild)
    (t : Entries) (d : String) (p : Int)
    (hp : resolvePipeline conf bp fa dom prt = .ok (t, d, p))
    (hb : OPConfiguration_init cwd conf bp ec dom prt fa = .ok b) :
    opTemplateDirEntries cwd (opMerge t) = .ok b.attrs := by
  unfold OPConfiguration_init at hb
  rw [hp, ok_bind] at hb
  dsimp only at hb
  cases htd : opTemplateDirEntries cwd (opMerge t) with
  | error e => rw [htd, error_bind] at hb; cases hb
  | ok attrs2 => rw [htd, ok_bind] at hb; cases hb; rfl

/-! ### Claim C2 -/

/-- **C2, counterexample.**  Two failures at one input: the raw config
explicitly supplies `authz = \x7b\x7d` (the key is present), yet the built
attribute is the default table's `authz` entry, not the supplied value;
and the raw config supplies an `issuer` string verbatim containing
placeholders, yet the built attribute is the substituted string, not
the supplied one. -/
theorem claim_C2_counterexample :
    (OPConfiguration_init "/cwd"
        (entriesOf [("authz", Val.dict Entries.nil), ("issuer", Val.str "https://{domain}:{port}")])
        "" Option.none "example.com" 443 Option.none).map
        (fun b => (lookupP b.attrs "authz", lookupP b.attrs "issuer")) =
      .ok (lookupD DEFAULT_CONFIG "authz", some (Val.str "https://example.com:443")) ∧
    lookupD DEFAULT_CONFIG "authz" ≠ some (Val.dict Entries.nil) ∧
    Val.str "https://example.com:443" ≠ Val.str "https://{domain}:{port}" :=
  ⟨by decide, by decide, by decide⟩

/-- **C2, amended (proved).**  The default table never overrides a
*truthy* value of the path-rewritten, template-substituted tree: for
every schema attribute whose transformed tree value is truthy, the
built attribute is exactly that transformed value (the default entry is
not used); `template_dir` is additionally resolved to an absolute
path. -/
theorem claim_C2 (cwd : String) (conf : Entries) (bp : String) (ec : Option (List EConf))
    (dom : String) (prt : Int) (fa : Option (List String)) (b : OPBuild)
    (t : Entries) (d : String) (p : Int)
    (hp : resolvePipeline conf bp fa dom prt = .ok (t, d, p))
    (hb : OPConfiguration_init cwd conf bp ec dom prt fa = .ok b) :
    (∀ k v0 v, lookupP opPlaceholders k = some v0 → k ≠ "template_dir" →
        lookupD t k = some v → Val.isFalsy v = false → lookupP b.attrs k = some v) ∧
    (∀ s, lookupD t "template_dir" = some (Val.str s) → s ≠ "" →
        lookupP b.attrs "template_dir" = some (Val.str (os_path_abspath cwd s))) := by
  constructor
  · intro k v0 v hv0 hk hlv hfalsy
    rw [op_attrs_lookup cwd conf bp ec dom prt fa b t d p hp hb k hk, hv0]
    simp [opMergeEntry, hlv, hfalsy]
  · intro s hs hs2
    have htd := op_build_td cwd conf bp ec dom prt fa b t d p hp hb
    have hfal : Val.isFalsy (Val.str s) = false := by simp [Val.isFalsy, hs2]
    have hm : lookupP (opMerge t) "template_dir" = some (Val.str s) := by
      unfold opMerge
      rw [lookupP_map_fst (opMergeEntry t) (opMergeEntry_fst t) opPlaceholders "template_dir"]
      rw [show lookupP opPlaceholders "template_dir" = some Val.none from by decide]
      simp [opMergeEntry, hs, hfal]
    obtain ⟨w, hw, hl⟩ := opTemplateDirEntries_lookup_td cwd (opMerge t) b.attrs (Val.str s) htd hm
    have hw2 : opTemplateDirEntry cwd ("template_dir", Val.str s) =
        .ok ("template_dir", Val.str (os_path_abspath cwd s)) := by
      simp [opTemplateDirEntry]
    rw [hw2] at hw
    cases hw
    exact hl

/-- **C2, witness.** -/
theorem claim_C2_witness :
    (OPConfiguration_init "/cwd"
        (entriesOf [("keys", Val.dict (entriesOf [("x", Val.int 1)])), ("template_dir", Val.str "tpl")])
        "" Option.none "d" 1 Option.none).map
        (fun b => (lookupP b.attrs "keys", lookupP b.attrs "template_dir")) =
      .ok (some (Val.dict (entriesOf [("x", Val.int 1)])), some (Val.str "/cwd/tpl")) := by
  have hok : isOkE (OPConfiguration_init "/cwd"
      (entriesOf [("keys", Val.dict (entriesOf [("x", Val.int 1)])), ("template_dir", Val.str "tpl")])
      "" Option.none "d" 1 Option.none) = true := by decide
  cases hb : OPConfiguration_init "/cwd"
      (entriesOf [("keys", Val.dict (entriesOf [("x", Val.int 1)])), ("template_dir", Val.str "tpl")])
      "" Option.none "d" 1 Option.none with
  | error e => rw [hb] at hok; simp [isOkE] at hok
  | ok b =>
    rw [map_ok]
    have h := claim_C2 "/cwd"
      (entriesOf [("keys", Val.dict (entriesOf [("x", Val.int 1)])), ("template_dir", Val.str "tpl")])
      "" Option.none "d" 1 Option.none b
      (entriesOf [("keys", Val.dict (entriesOf [("x", Val.int 1)])), ("template_dir", Val.str "tpl")])
      "d" 1 (by decide) hb
    have h1 := h.1 "keys" Val.none (Val.dict (entriesOf [("x", Val.int 1)]))
      (by decide) (by decide) (by decide) (by decide)
    have h2 := h.2 "tpl" (by decide) (by decide)
    rw [h1, h2, show os_path_abspath "/cwd" "tpl" = "/cwd/tpl" from by decide]

/-! ### Claim C3 -/

/-- **C3, counterexample.**  The merge rule is not the whole story for
`template_dir`: on the empty raw tree its value is falsy and the
default table has the entry `"templates"`, yet the built attribute is
the absolute path `/cwd/templates`, not the default entry. -/
theorem claim_C3_counterexample :
    (OPConfiguration_init "/cwd" Entries.nil "" Option.none "d" 1 Option.none).map
        (fun b => lookupP b.attrs "template_dir") = .ok (some (Val.str "/cwd/templates")) ∧
    lookupD DEFAULT_CONFIG "template_dir" = some (Val.str "templates") ∧
    some (Val.str "/cwd/templates") ≠ some (Val.str "templates") :=
  ⟨by decide, by decide, by decide⟩

/-- **C3, amended (proved).**  Default-merge rule of the provider-level
builder, for every schema attribute other than `template_dir`: a falsy
(or missing) transformed-tree value with a default entry gives the
default entry; a falsy value without a default entry keeps the
pre-initialised placeholder; a truthy value is taken verbatim.  In
particular a raw tree lacking `authz` builds an `authz` attribute equal
to the default table's entry.  `template_dir` follows the same merge
but is then resolved to an absolute path. -/
theorem claim_C3 (cwd : String) (conf : Entries) (bp : String) (ec : Option (List EConf))
    (dom : String) (prt : Int) (fa : Option (List String)) (b : OPBuild)
    (t : Entries) (d : String) (p : Int)
    (hp : resolvePipeline conf bp fa dom prt = .ok (t, d, p))
    (hb : OPConfiguration_init cwd conf bp ec dom prt fa = .ok b) :
    (∀ k v0 dv, lookupP opPlaceholders k = some v0 → k ≠ "template_dir" →
        Val.isFalsy ((lookupD t k).getD Val.none) = true → lookupD DEFAULT_CONFIG k = some dv →
        lookupP b.attrs k = some dv) ∧
    (∀ k v0, lookupP opPlaceholders k = some v0 → k ≠ "template_dir" →
        Val.isFalsy ((lookupD t k).getD Val.none) = true → lookupD DEFAULT_CONFIG k = Option.none →
        lookupP b.attrs k = some v0) ∧
    (∀ k v0 v, lookupP opPlaceholders k = some v0 → k ≠ "template_dir" →
        lookupD t k = some v → Val.isFalsy v = false → lookupP b.attrs k = some v) ∧
    ("authz" ∉ conf.keys → lookupP b.attrs "authz" = lookupD DEFAULT_CONFIG "authz") ∧
    (∀ s, (opMergeEntry t ("template_dir", Val.none)).2 = Val.str s →
        lookupP b.attrs "template_dir" = some (Val.str (os_path_abspath cwd s))) := by
  refine ⟨?_, ?_, ?_, ?_, ?_⟩
  · intro k v0 dv hv0 hk hfalsy hdv
    rw [op_attrs_lookup cwd conf bp ec dom prt fa b t d p hp hb k hk, hv0]
    simp [opMergeEntry, hfalsy, hdv]
  · intro k v0 hv0 hk hfalsy hdv
    rw [op_attrs_lookup cwd conf bp ec dom prt fa b t d p hp hb k hk, hv0]
    simp [opMergeEntry, hfalsy, hdv]
  · intro k v0 v hv0 hk hlv hfalsy
    rw [op_attrs_lookup cwd conf bp ec dom prt fa b t d p hp hb k hk, hv0]
    simp [opMergeEntry, hlv, hfalsy]
  · intro hmiss
    have hkeys : t.keys = conf.keys := resolvePipeline_keys conf bp fa dom prt t d p hp
    have hnone : lookupD t "authz" = Option.none :=
      (lookupD_none_iff t "authz").2 (by rw [hkeys]; exact hmiss)
    rw [op_attrs_lookup cwd conf bp ec dom prt fa b t d p hp hb "authz" (by decide)]
    rw [show lookupP opPlaceholders "authz" = some Val.none from by decide]
    simp [opMergeEntry, hnone]
    decide
  · intro s hs
    have htd := op_build_td cwd conf bp ec dom prt fa b t d p hp hb
    have hm : lookupP (opMerge t) "template_dir" = some (Val.str s) := by
      unfold opMerge
      rw [lookupP_map_fst (opMergeEntry t) (opMergeEntry_fst t) opPlaceholders "template_dir"]
      rw [show lookupP opPlaceholders "template_dir" = some Val.none from by decide]
      show some ((opMergeEntry t ("template_dir", Val.none)).2) = some (Val.str s)
      rw [hs]
    obtain ⟨w, hw, hl⟩ := opTemplateDirEntries_lookup_td cwd (opMerge t) b.attrs (Val.str s) htd hm
    have hw2 : opTemplateDirEntry cwd ("template_dir", Val.str s) =
        .ok ("template_dir", Val.str (os_path_abspath cwd s)) := by
      simp [opTemplateDirEntry]
    rw [hw2] at hw
    cases hw
    exact hl

/-- **C3, witness.**  A raw tree lacking `authz` (and everything else):
the built `authz` deep-equals the default table's entry, and a key with
neither tree value nor default (`keys`) stays at its placeholder. -/
theorem claim_C3_witness :
    (OPConfiguration_init "/cwd" (entriesOf [("port", Val.int 8000)]) "" Option.none "d" 1 Option.none).map
        (fun b => (lookupP b.attrs "authz", lookupP b.attrs "keys")) =
      .ok (lookupD DEFAULT_CONFIG "authz", some Val.none) := by
  have hok : isOkE (OPConfiguration_init "/cwd" (entriesOf [("port", Val.int 8000)]) "" Option.none "d" 1 Option.none) = true := by decide
  cases hb : OPConfiguration_init "/cwd" (entriesOf [("port", Val.int 8000)]) "" Option.none "d" 1 Option.none with
  | error e => rw [hb] at hok; simp [isOkE] at hok
  | ok b =>
    rw [map_ok]
    have h := claim_C3 "/cwd" (entriesOf [("port", Val.int 8000)]) "" Option.none "d" 1 Option.none b
      (entriesOf [("port", Val.int 8000)]) "d" 1 (by decide) hb
    have h1 := h.2.2.2.1 (by decide)
    have h2 := h.2.1 "keys" Val.none (by decide) (by decide) (by decide) (by decide)
    rw [h1, h2]

/-! ### Claim C9 -/

/-- **C9 (confirmed).**  The provider-level builder ignores
`entity_conf` entirely: any two values of it give identical results,
and a successful build carries exactly the eighteen fixed schema
attributes — no entity attribute is ever attached. -/
theorem claim_C9 (cwd : String) (conf : Entries) (bp : String) (dom : String) (prt : Int)
    (fa : Option (List String)) (ec1 ec2 : Option (List EConf)) :
    OPConfiguration_init cwd conf bp ec1 dom prt fa = OPConfiguration_init cwd conf bp ec2 dom prt fa ∧
    (∀ b, OPConfiguration_init cwd conf bp ec1 dom prt fa = .ok b →
        b.attrs.map Prod.fst = opPlaceholders.map Prod.fst) := by
  refine ⟨rfl, ?_⟩
  intro b hb
  obtain ⟨t, d, p, hp, htd, _⟩ := OPConfiguration_init_spec cwd conf bp ec1 dom prt fa b hb
  rw [opTemplateDirEntries_fst cwd (opMerge t) b.attrs htd]
  unfold opMerge
  rw [List.map_map]
  refine List.map_congr_left ?_
  intro kv _
  exact opMergeEntry_fst t kv

/-- **C9, witness.** -/
theorem claim_C9_witness :
    (OPConfiguration_init "/cwd" Entries.nil "" (some [⟨some ["a"], some "sub", some 3⟩]) "d" 1 Option.none =
      OPConfiguration_init "/cwd" Entries.nil "" Option.none "d" 1 Option.none) ∧
    (OPConfiguration_init "/cwd" Entries.nil "" (some [⟨some ["a"], some "sub", some 3⟩]) "d" 1 Option.none).map
        (fun b => b.attrs.map Prod.fst) = .ok (opPlaceholders.map Prod.fst) := by
  have h := claim_C9 "/cwd" Entries.nil "" "d" 1 Option.none
    (some [⟨some ["a"], some "sub", some 3⟩]) Option.none
  refine ⟨h.1, ?_⟩
  have hok : isOkE (OPConfiguration_init "/cwd" Entries.nil "" (some [⟨some ["a"], some "sub", some 3⟩]) "d" 1 Option.none) = true := by decide
  cases hb : OPConfiguration_init "/cwd" Entries.nil "" (some [⟨some ["a"], some "sub", some 3⟩]) "d" 1 Option.none with
  | error e => rw [hb] at hok; simp [isOkE] at hok
  | ok b =>
    rw [map_ok]
    rw [h.2 b hb]

/-! ### Claim C8 -/

/-- **C8 (confirmed).**  EntityAttacher contract of the server-level
builder: descriptors are processed in order and the first failure
stops the loop with its exception while keeping the assignments
already made (1); an all-successful list yields exactly its
assignments (2); a successful descriptor assigns, under its `attr`
name, an instance of its `class` built from the walked sub-tree with
the parent build's base path, file attributes, domain and port (3); a
missing intermediate key fails with `KeyError(step)` (4); a descriptor
lacking `attr` or `class` fails with `KeyError("attr")` /
`KeyError("class")` (5, 6) — the spec's `MissingConfigSection` and
`MalformedEntityDescriptor` labels for these two `KeyError` sites; and
`Configuration.__init__` runs exactly this loop on the transformed
tree with the resolved domain and port (7). -/
theorem claim_C8 :
    (∀ tree bp fa d p pre insts e err post,
        List.Forall₂ (fun x r => processEntity tree bp fa d p x = .ok r) pre insts →
        processEntity tree bp fa d p e = .error err →
        attachEntities tree bp fa d p (pre ++ e :: post) = (insts, some err)) ∧
    (∀ tree bp fa d p es insts,
        List.Forall₂ (fun x r => processEntity tree bp fa d p x = .ok r) es insts →
        attachEntities tree bp fa d p es = (insts, Option.none)) ∧
    (∀ tree bp fa d p e a inst, processEntity tree bp fa d p e = .ok (a, inst) →
        e.attr = some a ∧ e.cls = some inst.cls ∧ entitySubtree tree e.path = .ok inst.conf ∧
        inst.base_path = bp ∧ inst.file_attributes = fa ∧ inst.domain = d ∧ inst.port = p) ∧
    (∀ es (k : String) rest, lookupD es k = Option.none →
        walkPath (Val.dict es) (k :: rest) = .error (Err.keyError k)) ∧
    (∀ tree bp fa d p pa cls sub, entitySubtree tree pa = .ok sub →
        processEntity tree bp fa d p ⟨pa, Option.none, cls⟩ = .error (Err.keyError "attr")) ∧
    (∀ tree bp fa d p pa a sub, entitySubtree tree pa = .ok sub →
        processEntity tree bp fa d p ⟨pa, some a, Option.none⟩ = .error (Err.keyError "class")) ∧
    (∀ conf bp fa dom prt es b, Configuration_init conf (some es) bp fa dom prt = .ok b → es ≠ [] →
        ∃ conf1 d p, baseInit conf bp fa = .ok conf1 ∧ resolveDomain dom conf1 = .ok d ∧
          resolvePort prt conf1 = .ok p ∧ set_domain_and_port conf1 URIS d p = .ok b.callerTree ∧
          (b.entities, b.entErr) = attachEntities b.callerTree bp fa d p es) := by
  refine ⟨?_, ?_, ?_, ?_, ?_, ?_, ?_⟩
  · intro tree bp fa d p pre insts e err post hpre herr
    induction hpre with
    | nil => simp [attachEntities, herr]
    | @cons x r xs rs h1 h2 ih =>
      obtain ⟨a, inst⟩ := r
      simp [attachEntities, h1, ih]
  · intro tree bp fa d p es insts hall
    induction hall with
    | nil => rfl
    | @cons x r xs rs h1 h2 ih =>
      obtain ⟨a, inst⟩ := r
      simp [attachEntities, h1, ih]
  · intro tree bp fa d p e a inst h
    unfold processEntity at h
    cases hsub : entitySubtree tree e.path with
    | error err2 => rw [hsub, error_bind] at h; cases h
    | ok sub =>
      rw [hsub, ok_bind] at h
      cases hattr : e.attr with
      | none =>
        rw [hattr] at h
        dsimp only at h
        cases h
      | some a2 =>
        rw [hattr] at h
        dsimp only at h
        cases hcls : e.cls with
        | none =>
          rw [hcls] at h
          dsimp only at h
          cases h
        | some c2 =>
          rw [hcls] at h
          dsimp only at h
          cases h
          exact ⟨rfl, rfl, rfl, rfl, rfl, rfl, rfl⟩
  · intro es k rest hnone
    unfold walkPath
    rw [hnone]
  · intro tree bp fa d p pa cls sub hsub
    simp [processEntity, hsub, ok_bind, error_bind]
  · intro tree bp fa d p pa a sub hsub
    simp [processEntity, hsub, ok_bind, error_bind]
  · intro conf bp fa dom prt es b hb hes
    have hemp : es.isEmpty = false := by
      cases es with
      | nil => exact absurd rfl hes
      | cons x xs => rfl
    unfold Configuration_init at hb
    cases h1 : baseInit conf bp fa with
    | error e => rw [h1, error_bind] at hb; cases hb
    | ok conf1 =>
      rw [h1, ok_bind] at hb
      dsimp only at hb
      cases h2 : resolveDomain dom conf1 with
      | error e => rw [h2, error_bind] at hb; cases hb
      | ok d0 =>
        rw [h2, ok_bind] at hb
        cases h3 : resolvePort prt conf1 with
        | error e => rw [h3, error_bind] at hb; cases hb
        | ok p0 =>
          rw [h3, ok_bind] at hb
          cases h4 : set_domain_and_port conf1 URIS d0 p0 with
          | error e => rw [h4, error_bind] at hb; cases hb
          | ok conf2 =>
            rw [h4, ok_bind] at hb
            rw [hemp] at hb
            simp only [Bool.false_eq_true, if_false] at hb
            cases hb
            exact ⟨conf1, d0, p0, rfl, h2, h3, h4, rfl⟩

/-- **C8, witness.**  A two-level path descriptor builds the instance
from the sub-tree with the parent's arguments; a missing key fails with
`KeyError` of that key. -/
theorem claim_C8_witness :
    attachEntities (entriesOf [("a", Val.dict (entriesOf [("b", Val.dict (entriesOf [("x", Val.int 1)]))]))])
        "/bp" Option.none "d" 5 [⟨some ["a", "b"], some "sub", some 7⟩] =
      ([("sub", ⟨7, Val.dict (entriesOf [("x", Val.int 1)]), "/bp", Option.none, "d", 5⟩)], Option.none) ∧
    walkPath (Val.dict (entriesOf [("a", Val.int 1)])) ["zz"] = .error (Err.keyError "zz") := by
  constructor
  · exact claim_C8.2.1 _ "/bp" Option.none "d" 5 _ _ (List.Forall₂.cons (by decide) List.Forall₂.nil)
  · exact claim_C8.2.2.2.1 _ "zz" [] (by decide)

/-! ### Tagged-model lemmas -/

theorem lookupT_none_iff : ∀ (es : TEntries) (k : String),
    lookupT es k = Option.none ↔ k ∉ es.keysT
  | .nil, k => by simp [lookupT, TEntries.keysT]
  | .cons k2 v rest, k => by
    by_cases hk : k2 = k
    · subst hk; simp [lookupT, TEntries.keysT]
    · simp [lookupT, TEntries.keysT, hk, lookupT_none_iff rest k, Ne.symm hk]

theorem deepcopyEntries_keys : ∀ (es : TEntries) (c : Nat),
    ((deepcopyEntries es c).1).keysT = es.keysT
  | .nil, _ => rfl
  | .cons k v rest, c => by
    have ih := deepcopyEntries_keys rest (deepcopyVal v c).2
    simp only [deepcopyEntries]
    simpa [TEntries.keysT] using ih

theorem add_base_path_entriesT_keys (bp : String) (fa : List String) :
    ∀ es out, add_base_path_entriesT bp fa es = .ok out → out.keysT = es.keysT
  | .nil, out, h => by
    simp [add_base_path_entriesT] at h
    subst h; rfl
  | .cons k2 v2 rest, out, h => by
    simp only [add_base_path_entriesT] at h
    cases hw : add_base_path_valT bp fa k2 v2 with
    | error e => rw [hw, error_bind] at h; cases h
    | ok w2 =>
      rw [hw, ok_bind] at h
      cases hrest : add_base_path_entriesT bp fa rest with
      | error e => rw [hrest, error_bind] at h; cases h
      | ok ws =>
        rw [hrest, ok_bind] at h
        cases h
        simp [TEntries.keysT, add_base_path_entriesT_keys bp fa rest ws hrest]

theorem baseInitT_keys (conf : TEntries) (bp : String) (fa : Option (List String)) (conf1 : TEntries)
    (h : baseInitT conf bp fa = .ok conf1) : conf1.keysT = conf.keysT := by
  unfold baseInitT at h
  dsimp only at h
  split at h
  · exact add_base_path_entriesT_keys bp _ conf conf1 h
  · cases h; rfl

theorem sdp_entriesT_keys (uris : List String) (d : String) (p : Int) :
    ∀ es c out c2, sdp_entriesT uris d p es c = .ok (out, c2) → out.keysT = es.keysT
  | .nil, c, out, c2, h => by
    simp only [sdp_entriesT, Except.ok.injEq, Prod.mk.injEq] at h
    rw [← h.1]
  | .cons k2 v2 rest, c, out, c2, h => by
    simp only [sdp_entriesT] at h
    cases hw : sdp_valT uris d p k2 v2 c with
    | error e => rw [hw, error_bind] at h; cases h
    | ok wc =>
      obtain ⟨w2, cv⟩ := wc
      rw [hw, ok_bind] at h
      dsimp only at h
      cases hrest : sdp_entriesT uris d p rest cv with
      | error e => rw [hrest, error_bind] at h; cases h
      | ok wsc =>
        obtain ⟨ws, c3⟩ := wsc
        rw [hrest, ok_bind] at h
        dsimp only at h
        cases h
        have ih := sdp_entriesT_keys uris d p rest cv ws _ hrest
        simp [TEntries.keysT, ih]

theorem opMergeEntryT_fst (conf : TEntries) (kv : String × TVal) :
    (opMergeEntryT conf kv).1 = kv.1 := by
  obtain ⟨k, v⟩ := kv
  unfold opMergeEntryT
  dsimp only
  split
  · split <;> rfl
  · rfl

theorem opTemplateDirEntryT_ne (cwd : String) (k2 : String) (v2 : TVal)
    (hk2 : k2 ≠ "template_dir") : opTemplateDirEntryT cwd (k2, v2) = .ok (k2, v2) := by
  simp [opTemplateDirEntryT, hk2]

theorem opTemplateDirEntryT_ok_fst (cwd : String) (k2 : String) (v2 : TVal) (e2 : String × TVal)
    (h : opTemplateDirEntryT cwd (k2, v2) = .ok e2) : e2.1 = k2 := by
  by_cases hk2 : k2 = "template_dir"
  · subst hk2
    cases v2 with
    | none => simp only [opTemplateDirEntryT, if_pos rfl] at h; cases h; rfl
    | str s => simp only [opTemplateDirEntryT, if_pos rfl] at h; cases h; rfl
    | int n => simp [opTemplateDirEntryT] at h
    | bool b => simp [opTemplateDirEntryT] at h
    | list i es => simp [opTemplateDirEntryT] at h
    | dict i es => simp [opTemplateDirEntryT] at h
  · rw [opTemplateDirEntryT_ne cwd k2 v2 hk2] at h
    cases h; rfl

theorem opTemplateDirEntriesT_lookup_ne (cwd : String) : ∀ l out k,
    opTemplateDirEntriesT cwd l = .ok out → k ≠ "template_dir" → lookupP out k = lookupP l k
  | [], out, k, h, hk => by
    simp [opTemplateDirEntriesT] at h
    subst h; rfl
  | (k2, v2) :: rest, out, k, h, hk => by
    simp only [opTemplateDirEntriesT] at h
    cases he : opTemplateDirEntryT cwd (k2, v2) with
    | error e => rw [he, error_bind] at h; cases h
    | ok e2 =>
      rw [he, ok_bind] at h
      cases hrest : opTemplateDirEntriesT cwd rest with
      | error e => rw [hrest, error_bind] at h; cases h
      | ok rest2 =>
        rw [hrest, ok_bind] at h
        cases h
        by_cases hk2 : k2 = k
        · subst hk2
          rw [opTemplateDirEntryT_ne cwd k2 v2 (by simpa using hk)] at he
          cases he
          simp [lookupP]
        · obtain ⟨ek, ev⟩ := e2
          have hfst := opTemplateDirEntryT_ok_fst cwd k2 v2 (ek, ev) he
          dsimp only at hfst
          subst hfst
          simp [lookupP, hk2, opTemplateDirEntriesT_lookup_ne cwd rest rest2 k hrest hk]

/-- The schema key list of the provider-level builder. -/
theorem opPlaceholdersT_lookup (c : Nat) (k : String)
    (hk : k ∈ ["add_on", "authz", "authentication", "base_url", "capabilities",
               "cookie_handler", "endpoint", "httpc_params", "id_token", "issuer", "keys",
               "login_hint2acrs", "login_hint_lookup", "session_key", "sub_func",
               "template_dir", "token_handler_args", "userinfo"]) :
    (lookupP (opPlaceholdersT c).1 k).isSome = true := by
  simp only [List.mem_cons, List.not_mem_nil, or_false] at hk
  rcases hk with rfl | rfl | rfl | rfl | rfl | rfl | rfl | rfl | rfl | rfl | rfl | rfl | rfl | rfl | rfl | rfl | rfl | rfl <;>
    simp [opPlaceholdersT, lookupP]

/-! ### Claim C10 -/

/-- **C10, counterexample.**  `template_dir` breaks the claim even at
the level of values: on the empty raw tree the attribute is falsy and
defaulted, but the built object stores a fresh absolute-path string,
not the `DEFAULT_CONFIG` entry. -/
theorem claim_C10_counterexample :
    (OPConfiguration_init "/cwd" Entries.nil "" Option.none "d" 1 Option.none).map
        (fun b => lookupP b.attrs "template_dir") = .ok (some (Val.str "/cwd/templates")) ∧
    lookupD DEFAULT_CONFIG "template_dir" = some (Val.str "templates") ∧
    (some (Val.str "/cwd/templates") : Option Val) ≠ some (Val.str "templates") :=
  ⟨by decide, by decide, by decide⟩

/-- **C10, amended (proved).**  In the id-tagged model (equal ids =
identical heap object): whenever a provider-level schema attribute
other than `template_dir` is falsy in the path-rewritten,
template-substituted tree — missing, or present with a falsy value,
exactly the condition the merge loop tests — and the default table
supplies that key, the built object stores the default table's entry
itself: the identical tagged value, ids included, with no copy
applied.  So any two builds defaulting the same key share that one
object with the table, and mutating it through one alias is visible
through all.  `template_dir` is the exception: its defaulted value is
replaced by a fresh absolute-path string. -/
theorem claim_C10 (cwd : String) (conf : TEntries) (bp : String) (ec : Option (List EConf))
    (dom : String) (prt : Int) (fa : Option (List String)) (c0 : Nat) (b : OPBuildT)
    (conf1 : TEntries) (d : String) (p : Int) (conf2 : TEntries) (c3 : Nat)
    (k : String) (dv : TVal)
    (hb : OPConfiguration_initT cwd conf bp ec dom prt fa c0 = .ok b)
    (h1 : baseInitT (deepcopyEntries conf (c0 + 1)).1 bp fa = .ok conf1)
    (hd : resolveDomainT dom conf1 = .ok d)
    (hp2 : resolvePortT prt conf1 = .ok p)
    (h4 : sdp_entriesT URIS d p conf1 (opPlaceholdersT (deepcopyEntries conf (c0 + 1)).2).2 =
      .ok (conf2, c3))
    (hk : k ∈ ["add_on", "authz", "authentication", "base_url", "capabilities",
               "cookie_handler", "endpoint", "httpc_params", "id_token", "issuer", "keys",
               "login_hint2acrs", "login_hint_lookup", "session_key", "sub_func",
               "template_dir", "token_handler_args", "userinfo"])
    (htd : k ≠ "template_dir")
    (hfalsy : TVal.isFalsyT ((lookupT conf2 k).getD TVal.none) = true)
    (hdv : lookupT DEFAULT_CONFIG_T k = some dv) :
    lookupP b.attrs k = some dv := by
  unfold OPConfiguration_initT at hb
  dsimp only at hb
  rw [h1, ok_bind] at hb
  rw [hd, ok_bind] at hb
  rw [hp2, ok_bind] at hb
  rw [h4, ok_bind] at hb
  dsimp only at hb
  cases h5 : opTemplateDirEntriesT cwd
      ((opPlaceholdersT (deepcopyEntries conf (c0 + 1)).2).1.map (opMergeEntryT conf2)) with
  | error e => rw [h5, error_bind] at hb; cases hb
  | ok attrs2 =>
    rw [h5, ok_bind] at hb
    cases hb
    dsimp only
    obtain ⟨v0, hv0⟩ := Option.isSome_iff_exists.mp
      (opPlaceholdersT_lookup (deepcopyEntries conf (c0 + 1)).2 k hk)
    rw [opTemplateDirEntriesT_lookup_ne cwd _ attrs2 k h5 htd,
        lookupP_map_fst (opMergeEntryT conf2) (opMergeEntryT_fst conf2) _ k, hv0]
    simp [opMergeEntryT, hfalsy, hdv]

/-- **C10, witness.**  Two raw trees — one lacking `authz`, one
supplying it present but falsy (`authz = \x7b\x7d`): both builds store the
very tagged `authz` entry of the default table (same ids — the
identical object). -/
theorem claim_C10_witness :
    (OPConfiguration_initT "/cwd" TEntries.nil "" Option.none "d" 1 Option.none 1000).map
        (fun b => lookupP b.attrs "authz") = .ok (lookupT DEFAULT_CONFIG_T "authz") ∧
    (OPConfiguration_initT "/cwd" (TEntries.cons "authz" (TVal.dict 95 TEntries.nil) TEntries.nil) ""
        Option.none "d" 1 Option.none 2000).map
        (fun b => lookupP b.attrs "authz") = .ok (lookupT DEFAULT_CONFIG_T "authz") := by
  have hsome : (lookupT DEFAULT_CONFIG_T "authz").isSome = true := by decide
  obtain ⟨dv, hdv⟩ := Option.isSome_iff_exists.mp hsome
  constructor
  · have hok : isOkE (OPConfiguration_initT "/cwd" TEntries.nil "" Option.none "d" 1 Option.none 1000) = true := by decide
    cases hb : OPConfiguration_initT "/cwd" TEntries.nil "" Option.none "d" 1 Option.none 1000 with
    | error e => rw [hb] at hok; simp [isOkE] at hok
    | ok b =>
      rw [map_ok]
      rw [claim_C10 "/cwd" TEntries.nil "" Option.none "d" 1 Option.none 1000 b
        TEntries.nil "d" 1 TEntries.nil 1006 "authz" dv hb
        (by decide) (by decide) (by decide) (by decide) (by decide) (by decide) (by decide) hdv, hdv]
  · have hok : isOkE (OPConfiguration_initT "/cwd" (TEntries.cons "authz" (TVal.dict 95 TEntries.nil) TEntries.nil) "" Option.none "d" 1 Option.none 2000) = true := by decide
    cases hb : OPConfiguration_initT "/cwd" (TEntries.cons "authz" (TVal.dict 95 TEntries.nil) TEntries.nil) "" Option.none "d" 1 Option.none 2000 with
    | error e => rw [hb] at hok; simp [isOkE] at hok
    | ok b =>
      rw [map_ok]
      rw [claim_C10 "/cwd" (TEntries.cons "authz" (TVal.dict 95 TEntries.nil) TEntries.nil) ""
        Option.none "d" 1 Option.none 2000 b
        (TEntries.cons "authz" (TVal.dict 2001 TEntries.nil) TEntries.nil) "d" 1
        (TEntries.cons "authz" (TVal.dict 2001 TEntries.nil) TEntries.nil) 2007 "authz" dv hb
        (by decide) (by decide) (by decide) (by decide) (by decide) (by decide) (by decide) hdv, hdv]

/-! ### Claim C1 -/

/-- **C1 (confirmed).**  Copy asymmetry of the two builders.
(i) The provider-level builder deep-copies, so the caller's tree after
any successful `OPConfiguration.__init__` is the input tree, unchanged.
(ii) The server-level builder works on the caller's tree itself: after
a successful `Configuration.__init__` the caller holds exactly the
path-rewritten, template-substituted tree, and (iii) on a witness tree
that differs from the input.  In the id-tagged model:
(iv) the built server object's `webserver` attribute *is* the caller's
`webserver` subtree (same heap id, so mutating the attribute mutates
the input tree), while (v) no mutable object reachable from a built
provider-level object's attributes comes from the caller's tree (the
ids are disjoint, so no mutation of the built object is visible in the
input tree). -/
theorem claim_C1 :
    (∀ cwd conf bp ec dom prt fa b, OPConfiguration_init cwd conf bp ec dom prt fa = .ok b →
        b.callerTree = conf) ∧
    (∀ conf ec bp fa dom prt b, Configuration_init conf ec bp fa dom prt = .ok b →
        ∃ conf1 d p, baseInit conf bp fa = .ok conf1 ∧ resolveDomain dom conf1 = .ok d ∧
          resolvePort prt conf1 = .ok p ∧ set_domain_and_port conf1 URIS d p = .ok b.callerTree) ∧
    ((Configuration_init (entriesOf [("issuer", Val.str "https://{domain}:{port}")]) Option.none ""
        Option.none "example.com" 443).map SrvBuild.callerTree =
      .ok (entriesOf [("issuer", Val.str "https://example.com:443")]) ∧
      entriesOf [("issuer", Val.str "https://example.com:443")] ≠
        entriesOf [("issuer", Val.str "https://{domain}:{port}")]) ∧
    ((Configuration_initT 77
        (TEntries.cons "webserver" (TVal.dict 90 (TEntries.cons "host" (TVal.str "h") TEntries.nil))
          (TEntries.cons "keys" (TVal.dict 91 (TEntries.cons "x" (TVal.int 1) TEntries.nil)) TEntries.nil))
        Option.none "" Option.none "example.com" 443 1000).map (fun b => rootId b.webserver) =
      .ok (some 90) ∧
      90 ∈ idsEntries
        (TEntries.cons "webserver" (TVal.dict 90 (TEntries.cons "host" (TVal.str "h") TEntries.nil))
          (TEntries.cons "keys" (TVal.dict 91 (TEntries.cons "x" (TVal.int 1) TEntries.nil)) TEntries.nil))) ∧
    ((OPConfiguration_initT "/cwd"
        (TEntries.cons "webserver" (TVal.dict 90 (TEntries.cons "host" (TVal.str "h") TEntries.nil))
          (TEntries.cons "keys" (TVal.dict 91 (TEntries.cons "x" (TVal.int 1) TEntries.nil)) TEntries.nil))
        "" Option.none "example.com" 443 Option.none 1000).map
        (fun b => (idsAttrs b.attrs).filter (fun i => (idsEntries
          (TEntries.cons "webserver" (TVal.dict 90 (TEntries.cons "host" (TVal.str "h") TEntries.nil))
            (TEntries.cons "keys" (TVal.dict 91 (TEntries.cons "x" (TVal.int 1) TEntries.nil)) TEntries.nil))).contains i)) =
      .ok []) := by
  refine ⟨?_, ?_, ⟨by decide, by decide⟩, ⟨by decide, by decide⟩, by decide⟩
  · intro cwd conf bp ec dom prt fa b hb
    obtain ⟨t, d, p, _, _, hct⟩ := OPConfiguration_init_spec cwd conf bp ec dom prt fa b hb
    exact hct
  · intro conf ec bp fa dom prt b hb
    unfold Configuration_init at hb
    cases h1 : baseInit conf bp fa with
    | error e => rw [h1, error_bind] at hb; cases hb
    | ok conf1 =>
      rw [h1, ok_bind] at hb
      try dsimp only at hb
      cases h2 : resolveDomain dom conf1 with
      | error e => rw [h2, error_bind] at hb; cases hb
      | ok d0 =>
        rw [h2, ok_bind] at hb
        cases h3 : resolvePort prt conf1 with
        | error e => rw [h3, error_bind] at hb; cases hb
        | ok p0 =>
          rw [h3, ok_bind] at hb
          cases h4 : set_domain_and_port conf1 URIS d0 p0 with
          | error e => rw [h4, error_bind] at hb; cases hb
          | ok conf2 =>
            rw [h4, ok_bind] at hb
            try dsimp only at hb
            cases hb
            exact ⟨conf1, d0, p0, rfl, h2, h3, h4⟩

/-- **C1, witness.** -/
theorem claim_C1_witness :
    (OPConfiguration_init "/cwd" (entriesOf [("issuer", Val.str "https://{domain}:{port}")]) ""
        Option.none "example.com" 443 Option.none).map OPBuild.callerTree =
      .ok (entriesOf [("issuer", Val.str "https://{domain}:{port}")]) := by
  have hok : isOkE (OPConfiguration_init "/cwd" (entriesOf [("issuer", Val.str "https://{domain}:{port}")]) ""
      Option.none "example.com" 443 Option.none) = true := by decide
  cases hb : OPConfiguration_init "/cwd" (entriesOf [("issuer", Val.str "https://{domain}:{port}")]) ""
      Option.none "example.com" 443 Option.none with
  | error e => rw [hb] at hok; simp [isOkE] at hok
  | ok b =>
    rw [map_ok, claim_C1.1 "/cwd" (entriesOf [("issuer", Val.str "https://{domain}:{port}")]) ""
      Option.none "example.com" 443 Option.none b hb]

/-! ### Claim C4 -/

/-- **C4, counterexample.**  The claim is false as stated: the tree
`{"issuer": "\x7b\x7b"}` contains no remaining `{domain}`/`{port}`
token (and is itself a possible output of `set_domain_and_port`, being
the substitution of `{"issuer": "\x7b\x7b\x7b\x7b"}`), yet applying
`set_domain_and_port` to it is not a no-op: `str.format` un-escapes
the doubled brace to a single brace. -/
theorem claim_C4_counterexample :
    set_domain_and_port (entriesOf [("issuer", Val.str "\x7b\x7b\x7b\x7b")]) URIS "example.com" 443 =
      .ok (entriesOf [("issuer", Val.str "\x7b\x7b")]) ∧
    set_domain_and_port (entriesOf [("issuer", Val.str "\x7b\x7b")]) URIS "example.com" 443 =
      .ok (entriesOf [("issuer", Val.str "\x7b")]) ∧
    entriesOf [("issuer", Val.str "\x7b")] ≠ entriesOf [("issuer", Val.str "\x7b\x7b")] :=
  ⟨by decide, by decide, by decide⟩

/-- **C4, amended (proved).**  Template substitution is a no-op on
trees whose URI-keyed values are brace-free: formatting a string with
no brace character at all returns it unchanged, and
`set_domain_and_port` returns a tree equal to its input whenever every
value it would format (URI-keyed strings, or every element of a
URI-keyed list, recursively through nested mappings) is a brace-free
string.  (Merely lacking `{domain}`/`{port}` tokens is not enough:
brace escapes `\x7b\x7b`/`\x7d\x7d` are rewritten and other
replacement fields raise, so idempotence needs brace-freeness.) -/
theorem claim_C4 (uris : List String) (domain : String) (port : Int) :
    (∀ s : String, braceFree s = true → pyFormat domain port s = .ok s) ∧
    (∀ conf : Entries, substFixedEntries uris conf = true →
      set_domain_and_port conf uris domain port = .ok conf) :=
  ⟨fun s h => pyFormat_braceFree domain port s h,
   fun conf h => sdp_entries_fixed uris domain port conf h⟩

/-- **C4, witness.** -/
theorem claim_C4_witness :
    pyFormat "example.com" 443 "https://op.example.org/auth" = .ok "https://op.example.org/auth" ∧
    set_domain_and_port
      (entriesOf [("issuer", Val.str "https://op.example.org"),
                  ("sub", Val.dict (entriesOf [("base_url", Val.list (listOf [Val.str "https://a", Val.str "https://b"]))]))])
      URIS "example.com" 443 =
      .ok (entriesOf [("issuer", Val.str "https://op.example.org"),
                  ("sub", Val.dict (entriesOf [("base_url", Val.list (listOf [Val.str "https://a", Val.str "https://b"]))]))]) :=
  ⟨(claim_C4 URIS "example.com" 443).1 "https://op.example.org/auth" (by decide),
   (claim_C4 URIS "example.com" 443).2 _ (by decide)⟩

/-! ### Claim C5 -/

/-- **C5, counterexample.**  `add_base_path` is not total: a non-string
value under a file-attribute key makes `val.startswith` raise
`AttributeError` (here `{"filename": 5}`).  And values under keys
outside the file-attribute set are not all preserved: the transform
recurses into nested mappings, so the value of `"a"` changes. -/
theorem claim_C5_counterexample :
    add_base_path (entriesOf [("filename", Val.int 5)]) "/b" DEFAULT_FILE_ATTRIBUTE_NAMES =
      .error Err.attributeError ∧
    add_base_path (entriesOf [("a", Val.dict (entriesOf [("filename", Val.str "f")]))]) "/b"
        DEFAULT_FILE_ATTRIBUTE_NAMES =
      .ok (entriesOf [("a", Val.dict (entriesOf [("filename", Val.str "/b/f")]))]) ∧
    Val.dict (entriesOf [("filename", Val.str "/b/f")]) ≠ Val.dict (entriesOf [("filename", Val.str "f")]) :=
  ⟨by decide, by decide, by decide⟩

/-- **C5, amended (proved).**  `add_base_path` completes without error
on every tree in which each value under a file-attribute key — in the
root dict or in any nested dict it recurses into — is a string; and
every non-dict value under a key outside the file-attribute set (in
particular every sequence, whose elements are never traversed) is
returned unchanged. -/
theorem claim_C5 (bp : String) (fa : List String) :
    (∀ conf, faStringsEntries fa conf = true → ∃ out, add_base_path conf bp fa = .ok out) ∧
    (∀ conf out k v, add_base_path conf bp fa = .ok out → k ∉ fa → lookupD conf k = some v →
        Val.isDictB v = false → lookupD out k = some v) := by
  constructor
  · intro conf h
    exact add_base_path_entries_total bp fa conf h
  · intro conf out k v h hk hl hd
    obtain ⟨w, hw, hl2⟩ := add_base_path_entries_lookup bp fa conf out k v h hl
    rw [add_base_path_val_nonfa_nondict bp fa k v hk hd] at hw
    cases hw
    exact hl2

/-- **C5, witness.** -/
theorem claim_C5_witness :
    (∃ out, add_base_path (entriesOf [("filename", Val.str "f"), ("xs", Val.list (listOf [Val.str "p/q"]))])
        "/b" DEFAULT_FILE_ATTRIBUTE_NAMES = .ok out) ∧
    lookupD (entriesOf [("filename", Val.str "/b/f"), ("xs", Val.list (listOf [Val.str "p/q"]))]) "xs" =
      some (Val.list (listOf [Val.str "p/q"])) := by
  constructor
  · exact (claim_C5 "/b" DEFAULT_FILE_ATTRIBUTE_NAMES).1 _ (by decide)
  · exact (claim_C5 "/b" DEFAULT_FILE_ATTRIBUTE_NAMES).2
      (entriesOf [("filename", Val.str "f"), ("xs", Val.list (listOf [Val.str "p/q"]))])
      (entriesOf [("filename", Val.str "/b/f"), ("xs", Val.list (listOf [Val.str "p/q"]))])
      "xs" _ (by decide) (by decide) (by decide) (by decide)

/-! ### Claim C6 -/

/-- **C6, counterexample.**  The final sentence of the claim — the
transform "recurses into nested mappings independently of the key
match" — fails on the code: a nested mapping under a file-attribute
key is not recursed into, it makes `val.startswith` raise
`AttributeError`. -/
theorem claim_C6_counterexample :
    add_base_path (entriesOf [("template_dir", Val.dict (entriesOf [("x", Val.str "y")]))]) "/b"
      DEFAULT_FILE_ATTRIBUTE_NAMES = .error Err.attributeError := by decide

/-- **C6, amended (proved).**  When `add_base_path` completes, every
file-attribute key holding a string is rewritten by exactly the three
documented rules (absolute values kept, `""` to `"./"`, otherwise
`os.path.join(base_path, value)`), and nested mappings are recursed
into under keys *outside* the file-attribute set; a mapping under a
file-attribute key instead makes the whole call raise. -/
theorem claim_C6 (bp : String) (fa : List String) :
    (∀ conf out k s, add_base_path conf bp fa = .ok out → k ∈ fa → lookupD conf k = some (.str s) →
        lookupD out k = some (.str
          (if strStartsWith s "/" then s else if s = "" then "./" ++ s else os_path_join bp s))) ∧
    (∀ conf out k es, add_base_path conf bp fa = .ok out → k ∉ fa → lookupD conf k = some (.dict es) →
        ∃ es2, add_base_path es bp fa = .ok es2 ∧ lookupD out k = some (.dict es2)) ∧
    (∀ conf k es out, k ∈ fa → lookupD conf k = some (.dict es) →
        add_base_path conf bp fa ≠ .ok out) := by
  refine ⟨?_, ?_, ?_⟩
  · intro conf out k s h hk hl
    obtain ⟨w, hw, hl2⟩ := add_base_path_entries_lookup bp fa conf out k _ h hl
    simp only [add_base_path_val, hk, if_true] at hw
    by_cases h1 : strStartsWith s "/"
    · simp only [h1, if_true] at hw ⊢
      cases hw
      exact hl2
    · by_cases h2 : s = ""
      · simp only [h1, h2, if_false, if_true] at hw ⊢
        cases hw
        simpa [h2] using hl2
      · simp only [h1, h2, if_false] at hw ⊢
        cases hw
        exact hl2
  · intro conf out k es h hk hl
    obtain ⟨w, hw, hl2⟩ := add_base_path_entries_lookup bp fa conf out k _ h hl
    simp only [add_base_path_val, hk, if_false] at hw
    cases hes2 : add_base_path_entries bp fa es with
    | error e => rw [hes2, map_error] at hw; cases hw
    | ok es2 =>
      rw [hes2, map_ok] at hw
      cases hw
      exact ⟨es2, hes2, hl2⟩
  · intro conf k es out hk hl h
    obtain ⟨w, hw, _⟩ := add_base_path_entries_lookup bp fa conf out k _ h hl
    simp [add_base_path_val, hk] at hw

/-- **C6, witness.**  The claim's own example: `"jwks.json"` with base
path `"/etc/idp"` becomes `"/etc/idp/jwks.json"`; an absolute value is
kept; `""` becomes `"./"`; a nested mapping under a non-file key is
recursed into. -/
theorem claim_C6_witness :
    lookupD (entriesOf [("filename", Val.str "/etc/idp/jwks.json"), ("server_key", Val.str "/abs"),
                        ("private_path", Val.str "./")]) "filename" =
      some (Val.str (if strStartsWith "jwks.json" "/" then "jwks.json"
                     else if "jwks.json" = "" then "./" ++ "jwks.json"
                     else os_path_join "/etc/idp" "jwks.json")) ∧
    (∃ es2, add_base_path (entriesOf [("filename", Val.str "f")]) "/etc/idp" DEFAULT_FILE_ATTRIBUTE_NAMES = .ok es2 ∧
      lookupD (entriesOf [("sub", Val.dict (entriesOf [("filename", Val.str "/etc/idp/f")]))]) "sub" =
        some (Val.dict es2)) := by
  constructor
  · exact (claim_C6 "/etc/idp" DEFAULT_FILE_ATTRIBUTE_NAMES).1
      (entriesOf [("filename", Val.str "jwks.json"), ("server_key", Val.str "/abs"),
                  ("private_path", Val.str "")])
      _ "filename" "jwks.json" (by decide) (by decide) (by decide)
  · exact (claim_C6 "/etc/idp" DEFAULT_FILE_ATTRIBUTE_NAMES).2.1
      (entriesOf [("sub", Val.dict (entriesOf [("filename", Val.str "f")]))])
      _ "sub" _ (by decide) (by decide) (by decide)

/-! ### Claim C7 -/

/-- **C7 (confirmed).**  When `set_domain_and_port` completes: a
URI-keyed string is replaced by its formatted value, a URI-keyed
sequence by a new sequence whose elements are the element strings
independently formatted with the same domain and port, and a dict
under a non-URI key is recursed into. -/
theorem claim_C7 (uris : List String) (domain : String) (port : Int)
    (conf out : Entries) (h : set_domain_and_port conf uris domain port = .ok out) :
    (∀ k s, k ∈ uris → lookupD conf k = some (.str s) →
        ∃ s2, pyFormat domain port s = .ok s2 ∧ lookupD out k = some (.str s2)) ∧
    (∀ k vs, k ∈ uris → lookupD conf k = some (.list vs) →
        ∃ ws, formatElems domain port vs = .ok ws ∧ lookupD out k = some (.list ws) ∧
          List.Forall₂ (fun v w => ∃ s s2, v = Val.str s ∧ pyFormat domain port s = .ok s2 ∧ w = Val.str s2)
            vs.toList ws.toList) ∧
    (∀ k es, k ∉ uris → lookupD conf k = some (.dict es) →
        ∃ es2, sdp_entries uris domain port es = .ok es2 ∧ lookupD out k = some (.dict es2)) := by
  refine ⟨?_, ?_, ?_⟩
  · intro k s hk hl
    obtain ⟨w, hw, hl2⟩ := sdp_entries_lookup uris domain port conf out k _ h hl
    simp only [sdp_val, hk, if_true] at hw
    cases hf : pyFormat domain port s with
    | error e => rw [hf, map_error] at hw; cases hw
    | ok s2 =>
      rw [hf, map_ok] at hw
      cases hw
      exact ⟨s2, rfl, hl2⟩
      
  · intro k vs hk hl
    obtain ⟨w, hw, hl2⟩ := sdp_entries_lookup uris domain port conf out k _ h hl
    simp only [sdp_val, hk, if_true] at hw
    cases hf : formatElems domain port vs with
    | error e => rw [hf, map_error] at hw; cases hw
    | ok ws =>
      rw [hf, map_ok] at hw
      cases hw
      exact ⟨ws, rfl, hl2, formatElems_forall2 domain port vs ws hf⟩
  · intro k es hk hl
    obtain ⟨w, hw, hl2⟩ := sdp_entries_lookup uris domain port conf out k _ h hl
    simp only [sdp_val, hk, if_false] at hw
    cases hes : sdp_entries uris domain port es with
    | error e => rw [hes, map_error] at hw; cases hw
    | ok es2 =>
      rw [hes, map_ok] at hw
      cases hw
      exact ⟨es2, rfl, hl2⟩

/-- **C7, witness.**  The claim's examples: `issuer =
"https://{domain}:{port}"` with domain `example.com`, port 443, and a
URI-keyed sequence whose two elements are substituted independently. -/
theorem claim_C7_witness :
    (∃ s2, pyFormat "example.com" 443 "https://{domain}:{port}" = .ok s2 ∧
      lookupD (entriesOf [("issuer", Val.str "https://example.com:443"),
                          ("base_url", Val.list (listOf [Val.str "https://example.com", Val.str "http://example.com:443"]))])
        "issuer" = some (Val.str s2)) ∧
    (∃ ws, formatElems "example.com" 443 (listOf [Val.str "https://{domain}", Val.str "http://{domain}:{port}"]) = .ok ws ∧
      lookupD (entriesOf [("issuer", Val.str "https://example.com:443"),
                          ("base_url", Val.list (listOf [Val.str "https://example.com", Val.str "http://example.com:443"]))])
        "base_url" = some (Val.list ws) ∧
      List.Forall₂ (fun v w => ∃ s s2, v = Val.str s ∧ pyFormat "example.com" 443 s = .ok s2 ∧ w = Val.str s2)
        (listOf [Val.str "https://{domain}", Val.str "http://{domain}:{port}"]).toList
        ws.toList) := by
  have h := claim_C7 URIS "example.com" 443
    (entriesOf [("issuer", Val.str "https://{domain}:{port}"),
                ("base_url", Val.list (listOf [Val.str "https://{domain}", Val.str "http://{domain}:{port}"]))])
    (entriesOf [("issuer", Val.str "https://example.com:443"),
                ("base_url", Val.list (listOf [Val.str "https://example.com", Val.str "http://example.com:443"]))])
    (by decide)
  exact ⟨h.1 "issuer" _ (by decide) (by decide), h.2.1 "base_url" _ (by decide) (by decide)⟩

end Oidcop
